import Mathlib

/-!
The loaders of t4kcommon (`src/t4kcommon/t4k-loaders.c`).

A shallow embedding of the image and sprite loaders of `t4k-loaders.c`, and the
properties of its file-name fallback policy, its proportional-fit arithmetic
and its sprite frame handling.

Conventions of the embedding.

* A C string is the list of its characters before the terminating zero byte.
* `char fn[PATH_MAX]` is the list of its defined bytes; `none` is a zero byte.
* `int` values are integers; a conversion that leaves the `int` range, a read
  or write outside an object and a null dereference are reported as a `Fault`.
* `float` values are the rationals representable in IEEE-754 binary32; every
  operation rounds its exact result to nearest, ties to even, and no
  intermediate result is kept in a wider format.
* Memory allocation (`malloc`, `SDL_CreateRGBSurface`) succeeds.
* The multimedia libraries (SDL, SDL_image, librsvg, cairo) and the file
  system are fields of `World`. A `Run` is the list of `Event`s a call caused,
  in program order, and its result; the events before a `Fault` are kept.
* `DEBUGMSG` output is not recorded.
-/

namespace T4K

/-! ## Data model -/

/-- Undefined behaviour the embedding detects. -/
inductive Fault where
  /-- a read at a negative offset of `fn` -/
  | read_before_buffer
  /-- a write at a negative offset of `fn` -/
  | write_before_buffer
  /-- a write past the end of `fn`, or after its defined bytes -/
  | buffer_overflow
  /-- a write through, or a read of, a null pointer -/
  | null_dereference
  /-- `frame[i]` written with `MAX_SPRITE_FRAMES ≤ i` -/
  | frame_index_out_of_bounds (i : Nat)
  /-- a `float` division whose divisor is zero -/
  | float_division_by_zero
  /-- a `float` result beyond the largest finite binary32 value -/
  | float_overflow
  /-- a `float` to `int` conversion whose value is outside the `int` range -/
  | float_to_int_out_of_range
  /-- signed overflow of an `int` operation -/
  | int_overflow
  deriving DecidableEq, Repr

/-- Equality of results is decidable. -/
instance decEqExcept {ε α : Type} [DecidableEq ε] [DecidableEq α] : DecidableEq (Except ε α)
  | .ok a, .ok b => if h : a = b then isTrue (by rw [h]) else isFalse (fun e => h (by cases e; rfl))
  | .error a, .error b =>
    if h : a = b then isTrue (by rw [h]) else isFalse (fun e => h (by cases e; rfl))
  | .ok _, .error _ => isFalse (fun e => by cases e)
  | .error _, .ok _ => isFalse (fun e => by cases e)

/-- A C string: its characters before the terminator. -/
abbrev CStr := List Char

/-- Build constants the source takes from headers that are outside this file:
`HAVE_RSVG` (the `#ifdef`), `PATH_MAX`, `MAX_SPRITE_FRAMES` and the `IMG_*`
mode bits. -/
structure Config where
  HAVE_RSVG : Bool
  PATH_MAX : Nat
  MAX_SPRITE_FRAMES : Nat
  IMG_REGULAR : Int
  IMG_COLORKEY : Int
  IMG_ALPHA : Int
  IMG_MODES : Int
  IMG_NOT_REQUIRED : Int
  IMG_NO_PNG_FALLBACK : Int

/-- An `SDL_Surface`: its pixel data (by identity) and its size. -/
structure Surface where
  pixels : Nat
  w : Int
  h : Int
  deriving DecidableEq, Repr

/-- An open `RsvgHandle`: the file it came from (by identity), the size
`rsvg_handle_get_dimensions` reports, and what
`sscanf(rsvg_handle_get_desc(h), "%d", &n)` stores in `n` (`none`: nothing). -/
structure RsvgHandle where
  file : Nat
  width : Int
  height : Int
  desc_frames : Option Int
  deriving DecidableEq, Repr

/-- The file system and the libraries the loaders call. -/
structure World where
  /-- what `fopen(file, "r")` finds -/
  fopen : CStr → Bool
  /-- the `IMG_Load` of SDL_image -/
  IMG_Load : CStr → Option Surface
  /-- the `rsvg_handle_new_from_file` of librsvg -/
  rsvg_handle_new_from_file : CStr → Option RsvgHandle
  /-- cairo rendering of a layer (`none`: the whole image) of a handle onto a
  surface of the given size: the pixels, or `none` when `cairo_status` is not
  `CAIRO_STATUS_SUCCESS` -/
  cairo_render : RsvgHandle → Int → Int → Option CStr → Option Nat
  /-- the `zoom` of the library -/
  zoom : Surface → Int → Int → Option Surface
  SDL_DisplayFormat : Option Surface → Option Surface
  SDL_DisplayFormatAlpha : Option Surface → Option Surface
  /-- the surface after `SDL_SetColorKey` with the yellow key -/
  SDL_SetColorKey : Surface → Surface
  /-- the value read from an `int` that was never stored -/
  indeterminate : Int

/-- The loader and SDL calls, and the writes to `stderr`, in program order. -/
inductive Event where
  | IMG_Load (fn : CStr)
  | get_svg_dimensions (fn : CStr)
  | load_svg (fn : CStr) (width height : Int)
  | zoom (img : Surface) (width height : Int)
  | set_format (img : Option Surface) (mode : Int)
  /-- the `fprintf(stderr, "... could not load required graphics file %s")` -/
  | stderr_could_not_load (file_name : CStr)
  /-- the `fprintf(stderr, "%s", SDL_GetError())` -/
  | stderr_SDL_GetError
  deriving DecidableEq, Repr

/-! ## Character buffers -/

/-- The defined bytes of a `char` array, from index 0. -/
abbrev Buf := List (Option Char)

/-- The bytes of a string followed by its terminator. -/
def bytes (s : CStr) : Buf := s.map some ++ [none]

/-- The C string that starts at offset `off` of a buffer. -/
def cstr (b : Buf) (off : Nat) : CStr :=
  ((b.drop off).takeWhile Option.isSome).filterMap id

/-- What `strlen` returns for the buffer. -/
def strlen (b : Buf) : Nat := (cstr b 0).length

/-- Store string `s` and its terminator at `b + off` (`strcpy`, `sprintf`)
in an array of `cap` bytes. -/
def poke (cap : Nat) (b : Buf) (off : Int) (s : CStr) : Except Fault Buf :=
  if off < 0 then .error .write_before_buffer
  else if cap < off.toNat + s.length + 1 then .error .buffer_overflow
  else if b.length < off.toNat then .error .buffer_overflow
  else .ok (b.take off.toNat ++ bytes s ++ b.drop (off.toNat + s.length + 1))

/-- Offset of the last occurrence of `c` in the string `s` (`strrchr`);
`none` is the null pointer. -/
def strrchr (s : CStr) (c : Char) : Option Nat :=
  match s with
  | [] => none
  | x :: xs =>
    match strrchr xs c with
    | some i => some (i + 1)
    | none => if x = c then some 0 else none

/-- Whether `strcmp(b + off, s)` is nonzero; the read faults at a negative
offset. -/
def strcmp_ne (b : Buf) (off : Int) (s : CStr) : Except Fault Bool :=
  if off < 0 then .error .read_before_buffer
  else .ok (decide (cstr b off.toNat ≠ s))

/-! ## Single precision arithmetic -/

/-- Nearest integer, ties to even. -/
def rne (y : ℚ) : ℤ :=
  if y - ⌊y⌋ < 1 / 2 then ⌊y⌋
  else if 1 / 2 < y - ⌊y⌋ then ⌊y⌋ + 1
  else if ⌊y⌋ % 2 = 0 then ⌊y⌋ else ⌊y⌋ + 1

/-- Exponent of the binade of `x` in binary32 (least normal exponent -126). -/
def binade (x : ℚ) : ℤ := max (Int.log 2 |x|) (-126)

/-- Spacing of the binary32 values in the binade of `x` (24 significant bits). -/
def ulp32 (x : ℚ) : ℚ := 2 ^ (binade x - 23)

/-- The binary32 value nearest to the exact result `x`, ties to even. -/
def round32 (x : ℚ) : Except Fault ℚ :=
  if |(rne (x / ulp32 x) : ℚ) * ulp32 x| < 2 ^ 128 then .ok ((rne (x / ulp32 x) : ℚ) * ulp32 x)
  else .error .float_overflow

/-- Conversion `(float) n` of an `int`. -/
def int_to_float (n : Int) : Except Fault ℚ := round32 (n : ℚ)

/-- The `float` quotient `a / b`. -/
def f32_div (a b : ℚ) : Except Fault ℚ :=
  if b = 0 then .error .float_division_by_zero else round32 (a / b)

/-- The `float` product `a * b`. -/
def f32_mul (a b : ℚ) : Except Fault ℚ := round32 (a * b)

/-- Conversion of a `float` to `int`: the fraction is discarded. -/
def float_to_int (x : ℚ) : Except Fault Int :=
  let t : Int := if 0 ≤ x then ⌊x⌋ else ⌈x⌉
  if -(2 ^ 31) ≤ t ∧ t < 2 ^ 31 then .ok t else .error .float_to_int_out_of_range

/-- Modelled from the spec: the `min` macro of the project's headers, which is
not in this file ("the smaller of the two independent scale factors"), in the
usual form `((a) < (b)) ? (a) : (b)`. -/
def fmin (a b : ℚ) : ℚ := if a < b then a else b

/-- Embedding of `fit_in_rectangle`. `width` and `height` are the values of
`*width` and `*height`; the result is their values on return. The guard
`width != 0 && height != 0` compares the two pointers, which are never null at
the call sites, so the body always runs. -/
def fit_in_rectangle (width height max_width max_height : Int) : Except Fault (Int × Int) := do
  let scale_w ← f32_div (← int_to_float max_width) (← int_to_float width)
  let scale_h ← f32_div (← int_to_float max_height) (← int_to_float height)
  let width' ← float_to_int (← f32_mul (← int_to_float width) (fmin scale_w scale_h))
  let height' ← float_to_int (← f32_mul (← int_to_float height) (fmin scale_w scale_h))
  pure (width', height')

/-! ## Runs -/

/-- A run of a function: the events it caused, in order, and its result. -/
structure Run (α : Type) where
  log : List Event
  res : Except Fault α

/-- Sequencing of runs: after a fault nothing more happens. -/
def Run.bind {α β : Type} (x : Run α) (f : α → Run β) : Run β :=
  match x.res with
  | .error e => ⟨x.log, .error e⟩
  | .ok a => ⟨x.log ++ (f a).log, (f a).res⟩

instance : Monad Run where
  pure a := ⟨[], .ok a⟩
  bind := Run.bind

/-- The run that records one event. -/
def Run.emit (e : Event) : Run Unit := ⟨[e], .ok ()⟩

/-- A computation without events. -/
def Run.ofExcept {α : Type} (x : Except Fault α) : Run α := ⟨[], x⟩

/-- The loader calls of a log, in order: `IMG_Load` and `load_svg`. -/
def attempts (log : List Event) : List Event :=
  log.filter fun e =>
    match e with
    | .IMG_Load _ => true
    | .load_svg _ _ _ => true
    | _ => false

/-! ## Images -/

/-- The literal ".svg". -/
def dot_svg : CStr := ['.', 's', 'v', 'g']

/-- The literal "png". -/
def png : CStr := ['p', 'n', 'g']

/-- Embedding of `get_svg_dimensions`: `width` and `height` are the values of
`*width` and `*height`, left as they are when the file cannot be opened. -/
def get_svg_dimensions (W : World) (file_name : CStr) (width height : Int) : Int × Int :=
  match W.rsvg_handle_new_from_file file_name with
  | none => (width, height)
  | some hd => (hd.width, hd.height)

/-- Embedding of `render_svg_from_handle`: the size of the surface, and the
pixels cairo draws on it (`World.cairo_render`). The two scale factors are
handed to cairo only. -/
def render_svg_from_handle (W : World) (hd : RsvgHandle) (width height : Int)
    (layer_name : Option CStr) : Option Surface :=
  if width < 0 ∨ height < 0 then
    (W.cairo_render hd hd.width hd.height layer_name).map fun px => ⟨px, hd.width, hd.height⟩
  else
    (W.cairo_render hd width height layer_name).map fun px => ⟨px, width, height⟩

/-- Embedding of `load_svg`. -/
def load_svg (W : World) (file_name : CStr) (width height : Int) (layer_name : Option CStr) :
    Option Surface :=
  match W.rsvg_handle_new_from_file file_name with
  | none => none
  | some hd => render_svg_from_handle W hd width height layer_name

/-- Embedding of `set_format`; the `IMG_COLORKEY` case reads `img->format`. -/
def set_format (cfg : Config) (W : World) (img : Option Surface) (mode : Int) :
    Run (Option Surface) := do
  Run.emit (.set_format img mode)
  if Int.land mode cfg.IMG_MODES = cfg.IMG_REGULAR then pure (W.SDL_DisplayFormat img)
  else if Int.land mode cfg.IMG_MODES = cfg.IMG_ALPHA then pure (W.SDL_DisplayFormatAlpha img)
  else if Int.land mode cfg.IMG_MODES = cfg.IMG_COLORKEY then
    match img with
    | none => Run.ofExcept (.error .null_dereference)
    | some s => pure (W.SDL_DisplayFormat (some (W.SDL_SetColorKey s)))
  else pure none

/-- The locals of `load_image` that its blocks hand on. -/
structure Locals where
  loaded_pic : Option Surface
  is_svg : Bool
  fn : Buf
  deriving DecidableEq, Repr

/-- First block of `load_image` (source lines 285-296): the extension test and
the raster load of the requested name. -/
def try_requested (cfg : Config) (W : World) (fn : Buf) (fn_len : Int) : Run Locals := do
  if ← Run.ofExcept (strcmp_ne fn (fn_len - 4) dot_svg) then
    Run.emit (.IMG_Load (cstr fn 0))
    match W.IMG_Load (cstr fn 0) with
    | some pic => pure ⟨some pic, false, fn⟩
    | none =>
      match strrchr (cstr fn 0) '.' with
      | none => Run.ofExcept (.error .null_dereference)
      | some p => do
        let fn ← Run.ofExcept (poke cfg.PATH_MAX fn p dot_svg)
        pure ⟨none, true, fn⟩
  else pure ⟨none, true, fn⟩

/-- The size at which the vector block asks for the SVG file `fn`
(lines 301-311). -/
def svg_size (W : World) (fn : CStr) (w h : Int) (proportional : Bool) : Except Fault (Int × Int) :=
  if proportional then
    if 0 < (get_svg_dimensions W fn (-1) (-1)).1 ∧ 0 < (get_svg_dimensions W fn (-1) (-1)).2 then
      fit_in_rectangle (get_svg_dimensions W fn (-1) (-1)).1 (get_svg_dimensions W fn (-1) (-1)).2 w h
    else pure (get_svg_dimensions W fn (-1) (-1))
  else pure (w, h)

/-- The `HAVE_RSVG` part of the second block of `load_image` (lines 300-312). -/
def try_vector (W : World) (s : Locals) (w h : Int) (proportional : Bool) : Run Locals := do
  if proportional then Run.emit (.get_svg_dimensions (cstr s.fn 0))
  let d ← Run.ofExcept (svg_size W (cstr s.fn 0) w h proportional)
  Run.emit (.load_svg (cstr s.fn 0) d.1 d.2)
  pure ⟨load_svg W (cstr s.fn 0) d.1 d.2 none, s.is_svg, s.fn⟩

/-- The PNG fallback of `load_image` (lines 315-334). -/
def try_png (cfg : Config) (W : World) (s : Locals) (fn_len mode : Int) : Run Locals := do
  match s.loaded_pic with
  | some _ => pure s
  | none =>
    if Int.land mode cfg.IMG_NO_PNG_FALLBACK ≠ 0 then pure s
    else
      let fn ← Run.ofExcept (poke cfg.PATH_MAX s.fn (fn_len - 3) png)
      Run.emit (.IMG_Load (cstr fn 0))
      pure ⟨W.IMG_Load (cstr fn 0), false, fn⟩

/-- Second block of `load_image` (lines 297-335). -/
def try_svg (cfg : Config) (W : World) (s : Locals) (fn_len mode w h : Int) (proportional : Bool) :
    Run Locals := do
  if s.is_svg then
    let s ← if cfg.HAVE_RSVG then try_vector W s w h proportional else pure s
    try_png cfg W s fn_len mode
  else pure s

/-- The size to which the last block zooms a raster image (lines 351-361). -/
def raster_size (pic : Surface) (w h : Int) (proportional : Bool) : Except Fault (Int × Int) :=
  if proportional then fit_in_rectangle pic.w pic.h w h else pure (w, h)

/-- Last block of `load_image` (lines 337-372). -/
def finish (cfg : Config) (W : World) (s : Locals) (file_name : CStr) (mode w h : Int)
    (proportional : Bool) : Run (Option Surface) := do
  match s.loaded_pic with
  | none =>
    if Int.land mode cfg.IMG_NOT_REQUIRED ≠ 0 then pure none
    else
      Run.emit (.stderr_could_not_load file_name)
      Run.emit .stderr_SDL_GetError
      pure none
  | some pic =>
    if s.is_svg = false ∧ 0 < w ∧ 0 < h then
      let d ← Run.ofExcept (raster_size pic w h proportional)
      Run.emit (.zoom pic d.1 d.2)
      set_format cfg W (W.zoom pic d.1 d.2) mode
    else set_format cfg W (some pic) mode

/-- Embedding of `load_image`; `file_name = none` is the null pointer. -/
def load_image (cfg : Config) (W : World) (file_name : Option CStr) (mode w h : Int)
    (proportional : Bool) : Run (Option Surface) :=
  match file_name with
  | none => pure none
  | some file_name => do
    let s ← try_requested cfg W (bytes (file_name.take (cfg.PATH_MAX - 1)))
      (strlen (bytes (file_name.take (cfg.PATH_MAX - 1))))
    let s ← try_svg cfg W s (strlen (bytes (file_name.take (cfg.PATH_MAX - 1)))) mode w h
      proportional
    finish cfg W s file_name mode w h proportional

/-- Embedding of `LoadScaledImage`. -/
def LoadScaledImage (cfg : Config) (W : World) (file_name : Option CStr) (mode width height : Int) :
    Run (Option Surface) :=
  load_image cfg W file_name mode width height false

/-- Embedding of `LoadImageOfBoundingBox`. -/
def LoadImageOfBoundingBox (cfg : Config) (W : World) (file_name : Option CStr)
    (mode max_width max_height : Int) : Run (Option Surface) :=
  load_image cfg W file_name mode max_width max_height true

/-- Embedding of `LoadImage`. -/
def LoadImage (cfg : Config) (W : World) (file_name : Option CStr) (mode : Int) :
    Run (Option Surface) :=
  LoadScaledImage cfg W file_name mode (-1) (-1)

/-! ## Sprites -/

/-- Modelled from the spec: the `sprite` type of the project's headers, which is
not in this file ("a default image plus an ordered, bounded sequence of
animation frames, with a cursor"), with the four fields the source uses.
`frame` lists the stored entries of the array `frame[MAX_SPRITE_FRAMES]`, from
index 0. -/
structure sprite where
  frame : List (Option Surface)
  default_img : Option Surface
  num_frames : Int
  cur : Int
  deriving DecidableEq, Repr

/-- The literal "d.png". -/
def d_png : CStr := ['d', '.', 'p', 'n', 'g']

/-- The literal ".png". -/
def dot_png : CStr := ['.', 'p', 'n', 'g']

/-- The literal "#default". -/
def layer_default : CStr := ['#', 'd', 'e', 'f', 'a', 'u', 'l', 't']

/-- The literal "#frame". -/
def layer_frame : CStr := ['#', 'f', 'r', 'a', 'm', 'e']

/-- A `sprintf` of the string `s` into `char fn[PATH_MAX]`. -/
def sprintf_fn (cfg : Config) (s : CStr) : Except Fault CStr :=
  if cfg.PATH_MAX < s.length + 1 then .error .buffer_overflow else .ok s

/-- The store `frame[i] = v`. Both loops store at consecutive indices from 0,
so the store extends the list of stored entries. -/
def store_frame (cfg : Config) (frame : List (Option Surface)) (i : Nat) (v : Option Surface) :
    Except Fault (List (Option Surface)) :=
  if cfg.MAX_SPRITE_FRAMES ≤ i then .error (.frame_index_out_of_bounds i) else .ok (frame ++ [v])

/-- The frame loop of `load_svg_sprite` (lines 133-137), with `n` iterations
left at index `i`. -/
def svg_frames (cfg : Config) (W : World) (hd : RsvgHandle) (width height : Int) :
    Nat → Nat → List (Option Surface) → Except Fault (List (Option Surface))
  | 0, _, frame => pure frame
  | n + 1, i, frame => do
    let frame ← store_frame cfg frame i
      (render_svg_from_handle W hd width height (some (layer_frame ++ Nat.toDigits 10 i)))
    svg_frames cfg W hd width height n (i + 1) frame

/-- Embedding of `load_svg_sprite`. The field `cur` is not stored here, and
`num_frames` is not when `sscanf` stores nothing. -/
def load_svg_sprite (cfg : Config) (W : World) (file_name : CStr) (width height : Int) :
    Except Fault (Option sprite) :=
  match W.rsvg_handle_new_from_file file_name with
  | none => pure none
  | some hd => do
    let frame ← svg_frames cfg W hd width height (hd.desc_frames.getD W.indeterminate).toNat 0 []
    pure (some ⟨frame, render_svg_from_handle W hd width height (some layer_default),
      hd.desc_frames.getD W.indeterminate, W.indeterminate⟩)

/-- The `set_format` calls on the frames of an SVG sprite (lines 493-494). -/
def set_format_frames (cfg : Config) (W : World) (mode : Int) : List (Option Surface) → Run Unit
  | [] => pure ()
  | f :: fs => do
    let _ ← set_format cfg W f mode
    set_format_frames cfg W mode fs

/-- The body of the `HAVE_RSVG` block of `load_sprite` (lines 472-497). -/
def svg_sprite_block (cfg : Config) (W : World) (name : CStr) (mode w h : Int) (proportional : Bool) :
    Run (Option sprite) := do
  let fn ← Run.ofExcept (sprintf_fn cfg (name ++ dot_svg))
  if W.fopen fn then
    let d ← Run.ofExcept
      (if proportional then
        if 0 < (get_svg_dimensions W fn W.indeterminate W.indeterminate).1 ∧
            0 < (get_svg_dimensions W fn W.indeterminate W.indeterminate).2 then
          fit_in_rectangle (get_svg_dimensions W fn W.indeterminate W.indeterminate).1
            (get_svg_dimensions W fn W.indeterminate W.indeterminate).2 w h
        else pure (get_svg_dimensions W fn W.indeterminate W.indeterminate)
      else pure (w, h))
    match ← Run.ofExcept (load_svg_sprite cfg W fn d.1 d.2) with
    | none => pure none
    | some s =>
      let _ ← set_format cfg W s.default_img mode
      set_format_frames cfg W mode s.frame
      pure (some { s with cur := 0 })
  else pure none

/-- The `HAVE_RSVG` block of `load_sprite` (lines 471-498); `new_sprite` stays
null in a build without SVG support. -/
def try_svg_sprite (cfg : Config) (W : World) (name : CStr) (mode w h : Int) (proportional : Bool) :
    Run (Option sprite) :=
  if cfg.HAVE_RSVG then svg_sprite_block cfg W name mode w h proportional else pure none

/-- One image of the PNG block of `load_sprite` (lines 506-509 and 519-522). -/
def load_sprite_image (cfg : Config) (W : World) (fn : CStr) (mode w h : Int) (proportional : Bool) :
    Run (Option Surface) :=
  if proportional then
    LoadImageOfBoundingBox cfg W (some fn) (Int.lor mode cfg.IMG_NOT_REQUIRED) w h
  else LoadScaledImage cfg W (some fn) (Int.lor mode cfg.IMG_NOT_REQUIRED) w h

/-- The frame loop of the PNG block of `load_sprite` (lines 516-531), with `n`
iterations left at index `i`. -/
def png_frames (cfg : Config) (W : World) (name : CStr) (mode w h : Int) (proportional : Bool) :
    Nat → Nat → sprite → Run sprite
  | 0, _, s => pure s
  | n + 1, i, s => do
    let fn ← Run.ofExcept (sprintf_fn cfg (name ++ Nat.toDigits 10 i ++ dot_png))
    let pic ← load_sprite_image cfg W fn mode w h proportional
    let frame ← Run.ofExcept (store_frame cfg s.frame i pic)
    match pic with
    | none => pure { s with frame := frame }
    | some _ =>
      png_frames cfg W name mode w h proportional n (i + 1)
        { s with frame := frame, num_frames := i + 1 }

/-- The PNG block of `load_sprite` (lines 502-531). -/
def load_png_sprite (cfg : Config) (W : World) (name : CStr) (mode w h : Int) (proportional : Bool) :
    Run sprite := do
  let fn ← Run.ofExcept (sprintf_fn cfg (name ++ d_png))
  let default_img ← load_sprite_image cfg W fn mode w h proportional
  png_frames cfg W name mode w h proportional cfg.MAX_SPRITE_FRAMES 0 ⟨[], default_img, 0, 0⟩

/-- Embedding of `load_sprite`. -/
def load_sprite (cfg : Config) (W : World) (name : CStr) (mode w h : Int) (proportional : Bool) :
    Run (Option sprite) := do
  let v ← try_svg_sprite cfg W name mode w h proportional
  let s ←
    match v with
    | some s => pure s
    | none => load_png_sprite cfg W name mode w h proportional
  if s.num_frames = 0 then pure none else pure (some s)

/-- Embedding of `LoadScaledSprite`. -/
def LoadScaledSprite (cfg : Config) (W : World) (name : CStr) (mode width height : Int) :
    Run (Option sprite) :=
  load_sprite cfg W name mode width height false

/-- Embedding of `LoadSprite`. -/
def LoadSprite (cfg : Config) (W : World) (name : CStr) (mode : Int) : Run (Option sprite) :=
  LoadScaledSprite cfg W name mode (-1) (-1)

/-- Embedding of `LoadSpriteOfBoundingBox`. -/
def LoadSpriteOfBoundingBox (cfg : Config) (W : World) (name : CStr)
    (mode max_width max_height : Int) : Run (Option sprite) :=
  load_sprite cfg W name mode max_width max_height true

/-- Embedding of `NextFrame`; `s = none` is the null pointer, and the result is
the sprite after the call. -/
def NextFrame (s : Option sprite) : Except Fault (Option sprite) :=
  match s with
  | none => pure none
  | some s =>
    if s.num_frames ≠ 0 then
      if 2 ^ 31 ≤ s.cur + 1 then .error .int_overflow
      else pure (some { s with cur := Int.tmod (s.cur + 1) s.num_frames })
    else pure (some s)

/-- The sprite after `n` calls of `NextFrame`. -/
def NextFrame_iter : Nat → Option sprite → Except Fault (Option sprite)
  | 0, s => pure s
  | n + 1, s => do NextFrame_iter n (← NextFrame s)

/-! ## Samples -/

/-- A sample build: SVG support, a buffer of 4096 bytes, 30 sprite frames and
one bit for each mode flag. -/
def sampleConfig : Config :=
  { HAVE_RSVG := true, PATH_MAX := 4096, MAX_SPRITE_FRAMES := 30,
    IMG_REGULAR := 1, IMG_COLORKEY := 2, IMG_ALPHA := 4, IMG_MODES := 7,
    IMG_NOT_REQUIRED := 16, IMG_NO_PNG_FALLBACK := 32 }

/-- A sample world in which no file exists. -/
def emptyWorld : World :=
  { fopen := fun _ => false, IMG_Load := fun _ => none,
    rsvg_handle_new_from_file := fun _ => none,
    cairo_render := fun _ _ _ _ => none, zoom := fun s w h => some ⟨s.pixels, w, h⟩,
    SDL_DisplayFormat := id, SDL_DisplayFormatAlpha := id, SDL_SetColorKey := id,
    indeterminate := 0 }

/-- A sample world with one raster file "a.png" of 10 x 20 pixels and one SVG
file "b.svg" of 10 x 10. -/
def sampleWorld : World :=
  { emptyWorld with
    fopen := fun n => n = ['a', '.', 'p', 'n', 'g'] ∨ n = ['b', '.', 's', 'v', 'g'],
    IMG_Load := fun n => if n = ['a', '.', 'p', 'n', 'g'] then some ⟨1, 10, 20⟩ else none,
    rsvg_handle_new_from_file := fun n =>
      if n = ['b', '.', 's', 'v', 'g'] then some ⟨2, 10, 10, none⟩ else none,
    cairo_render := fun hd _ _ _ => some hd.file }

/-- A sample world with the frames "tux0.png" and "tux1.png" and a file
"tux.svg" that `fopen` opens and librsvg does not. -/
def tuxWorld : World :=
  { emptyWorld with
    fopen := fun n => n = ['t', 'u', 'x', '.', 's', 'v', 'g'],
    IMG_Load := fun n =>
      if n = ['t', 'u', 'x', '0', '.', 'p', 'n', 'g'] then some ⟨4, 10, 20⟩
      else if n = ['t', 'u', 'x', '1', '.', 'p', 'n', 'g'] then some ⟨5, 10, 20⟩ else none }

/-- A sample world whose only file is the SVG sprite "tux.svg", with the frame
count `frames` in its description. -/
def spriteWorld (frames : Int) : World :=
  { emptyWorld with
    fopen := fun n => n = ['t', 'u', 'x', '.', 's', 'v', 'g'],
    rsvg_handle_new_from_file := fun n =>
      if n = ['t', 'u', 'x', '.', 's', 'v', 'g'] then some ⟨3, 10, 10, some frames⟩ else none,
    cairo_render := fun hd _ _ _ => some hd.file }


/-! ## `NextFrame` -/

/-- One call of `NextFrame` on a sprite whose cursor is in range. -/
lemma NextFrame_step (s : sprite) (h0 : 0 < s.num_frames) (hc0 : 0 ≤ s.cur)
    (hc : s.cur < s.num_frames) (hint : s.num_frames < 2 ^ 31) :
    NextFrame (some s) = .ok (some { s with cur := (s.cur + 1) % s.num_frames }) := by
  have h1 : s.num_frames ≠ 0 := by omega
  have h2 : ¬ (2 : Int) ^ 31 ≤ s.cur + 1 := by omega
  have h3 : Int.tmod (s.cur + 1) s.num_frames = (s.cur + 1) % s.num_frames :=
    Int.tmod_eq_emod (by omega) (by omega)
  simp only [NextFrame, h1, h2, h3, ne_eq, not_false_eq_true, if_true, if_false]
  rfl

/-- After `k` calls the cursor has advanced by `k` modulo the frame count. -/
lemma NextFrame_iter_eq (k : Nat) : ∀ (s : sprite), 0 < s.num_frames → 0 ≤ s.cur →
    s.cur < s.num_frames → s.num_frames < 2 ^ 31 →
    NextFrame_iter k (some s) = .ok (some { s with cur := (s.cur + k) % s.num_frames }) := by
  induction k with
  | zero =>
    intro s h0 hc0 hc _
    simp only [NextFrame_iter, Nat.cast_zero, add_zero, Int.emod_eq_of_lt hc0 hc]
    rfl
  | succ k ih =>
    intro s h0 hc0 hc hint
    have hm0 : 0 ≤ (s.cur + 1) % s.num_frames := Int.emod_nonneg _ (by omega)
    have hm1 : (s.cur + 1) % s.num_frames < s.num_frames := Int.emod_lt_of_pos _ h0
    have := ih { s with cur := (s.cur + 1) % s.num_frames } h0 hm0 hm1 hint
    simp only [NextFrame_iter, NextFrame_step s h0 hc0 hc hint]
    show NextFrame_iter k (some { s with cur := (s.cur + 1) % s.num_frames }) = _
    rw [this]
    simp only [Nat.cast_succ, Int.emod_add_cancel_right, Int.emod_emod_of_dvd, Int.add_mul_emod_self,
      Int.emod_add_emod]
    congr 3
    ring_nf

/-- C9. For a sprite with `0 < num_frames` (an `int`) and `0 ≤ cur < num_frames`,
`NextFrame` returns normally and changes only `cur`, to `(cur + 1) mod num_frames`;
the new cursor is again in `[0, num_frames)`, it is 0 after the last frame, the
sprite is back at its starting cursor after `num_frames` calls and not after any
smaller positive number of calls. For the null pointer and for a sprite with
`num_frames = 0` the call changes nothing. -/
theorem NextFrame_advances_cursor (s : sprite) (h0 : 0 < s.num_frames) (hc0 : 0 ≤ s.cur)
    (hc : s.cur < s.num_frames) (hint : s.num_frames < 2 ^ 31) :
    NextFrame (some s) = .ok (some { s with cur := (s.cur + 1) % s.num_frames }) ∧
    0 ≤ (s.cur + 1) % s.num_frames ∧ (s.cur + 1) % s.num_frames < s.num_frames ∧
    (s.cur + 1 = s.num_frames → (s.cur + 1) % s.num_frames = 0) ∧
    NextFrame_iter s.num_frames.toNat (some s) = .ok (some s) ∧
    (∀ k : Nat, 0 < k → k < s.num_frames.toNat → NextFrame_iter k (some s) ≠ .ok (some s)) ∧
    NextFrame none = .ok none ∧
    (∀ t : sprite, t.num_frames = 0 → NextFrame (some t) = .ok (some t)) := by
  refine ⟨NextFrame_step s h0 hc0 hc hint, Int.emod_nonneg _ (by omega),
    Int.emod_lt_of_pos _ h0, ?_, ?_, ?_, rfl, ?_⟩
  · intro h
    rw [h, Int.emod_self]
  · rw [NextFrame_iter_eq _ s h0 hc0 hc hint, Int.toNat_of_nonneg h0.le, Int.add_emod_self,
      Int.emod_eq_of_lt hc0 hc]
  · intro k hk0 hkn
    rw [NextFrame_iter_eq _ s h0 hc0 hc hint]
    intro h
    have hcur : (s.cur + k) % s.num_frames = s.cur := by
      have := congrArg (fun r => match r with
        | Except.ok (some t) => t.cur
        | _ => 0) h
      simpa using this
    have hk : (k : Int) < s.num_frames := by omega
    rcases lt_or_le (s.cur + k) s.num_frames with hlt | hge
    · rw [Int.emod_eq_of_lt (by omega) hlt] at hcur
      omega
    · have : (s.cur + k) % s.num_frames = s.cur + k - s.num_frames := by
        have e : s.cur + k = (s.cur + k - s.num_frames) + s.num_frames := by ring
        rw [e, Int.add_emod_self, Int.emod_eq_of_lt (by omega) (by omega)]
        ring
      omega
  · intro t ht
    simp only [NextFrame, ht, ne_eq, not_true_eq_false, if_false]
    rfl

/-- A sprite of three frames at its last frame satisfies the hypotheses of
`NextFrame_advances_cursor`. -/
theorem NextFrame_advances_cursor_witness :
    NextFrame (some ⟨[], none, 3, 2⟩) = .ok (some ⟨[], none, 3, 0⟩) :=
  (NextFrame_advances_cursor ⟨[], none, 3, 2⟩ (by decide) (by decide) (by decide) (by decide)).1


/-! ## Runs: computation rules -/

@[simp] lemma Run.pure_def {α : Type} (a : α) : (pure a : Run α) = ⟨[], .ok a⟩ := rfl

@[simp] lemma Run.bind_ok {α β : Type} (l : List Event) (a : α) (f : α → Run β) :
    ((⟨l, .ok a⟩ : Run α) >>= f) = ⟨l ++ (f a).log, (f a).res⟩ := rfl

@[simp] lemma Run.bind_error {α β : Type} (l : List Event) (e : Fault) (f : α → Run β) :
    ((⟨l, .error e⟩ : Run α) >>= f) = ⟨l, .error e⟩ := rfl

@[simp] lemma Run.emit_def (e : Event) : Run.emit e = ⟨[e], .ok ()⟩ := rfl

@[simp] lemma Run.ofExcept_def {α : Type} (x : Except Fault α) : Run.ofExcept x = ⟨[], x⟩ := rfl

/-! ## Character buffers: computation rules -/

lemma takeWhile_isSome_map_some (s : CStr) (r : Buf) :
    (s.map some ++ none :: r).takeWhile Option.isSome = s.map some := by
  induction s with
  | nil => simp
  | cons x xs ih => simp [List.takeWhile_cons, ih]

lemma filterMap_id_map_some (s : CStr) : (s.map some).filterMap id = s := by
  induction s with
  | nil => rfl
  | cons x xs ih => simp [ih]

/-- A buffer that holds `s`, a zero byte and anything after it reads as `s`. -/
lemma cstr_string_then_zero (s : CStr) (r : Buf) : cstr (s.map some ++ none :: r) 0 = s := by
  simp only [cstr, List.drop_zero, takeWhile_isSome_map_some, filterMap_id_map_some]

lemma cstr_bytes (s : CStr) : cstr (bytes s) 0 = s := cstr_string_then_zero s []

lemma strlen_bytes (s : CStr) : strlen (bytes s) = s.length := by
  simp only [strlen, cstr_bytes]

lemma length_bytes (s : CStr) : (bytes s).length = s.length + 1 := by
  simp [bytes]

/-- Reading a string from an offset inside it gives its tail. -/
lemma cstr_bytes_drop (s : CStr) (k : Nat) (hk : k ≤ s.length) : cstr (bytes s) k = s.drop k := by
  have h : (bytes s).drop k = (s.drop k).map some ++ [none] := by
    simp only [bytes, List.drop_append_eq_append_drop, List.map_drop, List.length_map]
    rw [Nat.sub_eq_zero_of_le hk]
    rfl
  simp only [cstr, h, takeWhile_isSome_map_some, filterMap_id_map_some]

/-- The string read after a store at or before the terminator. -/
lemma cstr_store (y : CStr) (r rest : Buf) (off : Nat) (t : CStr) (h : off ≤ y.length) :
    cstr ((y.map some ++ none :: r).take off ++ bytes t ++ rest) 0 = y.take off ++ t := by
  have h1 : (y.map some ++ none :: r).take off = (y.take off).map some := by
    rw [List.take_append_of_le_length (by simpa using h), List.map_take]
  rw [h1, bytes, ← List.append_assoc, ← List.map_append, List.append_assoc]
  exact cstr_string_then_zero _ _

/-- A store that fits succeeds and does not shorten the defined bytes. -/
lemma poke_ok (cap : Nat) (b : Buf) (off : Nat) (t : CStr) (h1 : off + t.length + 1 ≤ cap)
    (h2 : off ≤ b.length) :
    poke cap b off t = .ok (b.take off ++ bytes t ++ b.drop (off + t.length + 1)) := by
  have h3 : ¬ ((off : Int) < 0) := by omega
  have h4 : ¬ (cap < off + t.length + 1) := by omega
  have h5 : ¬ (b.length < off) := by omega
  simp only [poke, h3, h4, h5, Int.toNat_ofNat, if_false]

lemma length_store (b : Buf) (off : Nat) (t : CStr) (h2 : off ≤ b.length) :
    b.length ≤ (b.take off ++ bytes t ++ b.drop (off + t.length + 1)).length := by
  simp only [List.length_append, List.length_take, length_bytes, List.length_drop]
  omega

/-- The extension test on a name of at least four characters. -/
lemma strcmp_ne_bytes (s : CStr) (h : 4 ≤ s.length) :
    strcmp_ne (bytes s) ((strlen (bytes s) : Int) - 4) dot_svg
      = .ok (decide (s.drop (s.length - 4) ≠ dot_svg)) := by
  have h1 : ((s.length : Int) - 4) = ((s.length - 4 : Nat) : Int) := by omega
  have h3 : ¬ (((s.length - 4 : Nat) : Int) < 0) := by omega
  simp only [strcmp_ne, strlen_bytes, h1, h3, Int.toNat_ofNat, if_false,
    cstr_bytes_drop s (s.length - 4) (by omega)]

/-- The extension test on a shorter name reads before the buffer. -/
lemma strcmp_ne_short (s : CStr) (h : s.length < 4) :
    strcmp_ne (bytes s) ((strlen (bytes s) : Int) - 4) dot_svg = .error .read_before_buffer := by
  have h1 : ((s.length : Int) - 4) < 0 := by omega
  simp only [strcmp_ne, strlen_bytes, h1, if_true]

lemma strrchr_lt (c : Char) : ∀ (s : CStr) (p : Nat), strrchr s c = some p → p < s.length
  | [], p, h => by simp [strrchr] at h
  | x :: xs, p, h => by
    unfold strrchr at h
    cases hx : strrchr xs c with
    | some i =>
      rw [hx] at h
      have := strrchr_lt c xs i hx
      simp only [Option.some.injEq] at h
      subst h
      simp only [List.length_cons]
      omega
    | none =>
      rw [hx] at h
      by_cases hxc : x = c
      · simp only [hxc, if_true, Option.some.injEq] at h
        subst h
        simp
      · simp only [hxc, if_false] at h
        cases h

/-- `strrchr` finds nothing exactly when the character does not occur. -/
lemma strrchr_eq_none (c : Char) : ∀ (s : CStr), strrchr s c = none ↔ c ∉ s
  | [] => by simp [strrchr]
  | x :: xs => by
    unfold strrchr
    cases hx : strrchr xs c with
    | some i =>
      have : c ∈ xs := by
        by_contra hc
        rw [(strrchr_eq_none c xs).2 hc] at hx
        cases hx
      simp [this]
    | none =>
      have hc : c ∉ xs := (strrchr_eq_none c xs).1 hx
      by_cases hxc : x = c
      · simp [hxc]
      · have : ¬ c = x := fun h => hxc h.symm
        simp [hxc, hc, this]

/-- A name that ends in ".svg" has its last dot four characters before its end. -/
lemma strrchr_of_svg (s : CStr) (h : 4 ≤ s.length) (hs : s.drop (s.length - 4) = dot_svg) :
    strrchr s '.' = some (s.length - 4) := by
  have hsplit : s = s.take (s.length - 4) ++ dot_svg := by
    rw [← hs, List.take_append_drop]
  have key : ∀ (a : CStr), strrchr (a ++ dot_svg) '.' = some a.length := by
    intro a
    induction a with
    | nil => decide
    | cons x xs ih =>
      simp only [List.cons_append, List.length_cons]
      unfold strrchr
      rw [ih]
  have := key (s.take (s.length - 4))
  rw [← hsplit] at this
  rw [this, List.length_take]
  congr 1
  omega


/-! ## The blocks of `load_image` -/

lemma attempts_append (a b : List Event) : attempts (a ++ b) = attempts a ++ attempts b := by
  simp [attempts]

lemma set_format_log (cfg : Config) (W : World) (img : Option Surface) (mode : Int) :
    (set_format cfg W img mode).log = [.set_format img mode] := by
  unfold set_format
  simp only [Run.emit_def, Run.bind_ok, Run.pure_def, Run.ofExcept_def]
  split_ifs <;> first | rfl | (cases img <;> rfl)

/-- The last block calls no loader. -/
lemma finish_attempts (cfg : Config) (W : World) (s : Locals) (file_name : CStr) (mode w h : Int)
    (proportional : Bool) : attempts (finish cfg W s file_name mode w h proportional).log = [] := by
  unfold finish
  cases hp : s.loaded_pic with
  | none =>
    simp only [Run.emit_def, Run.bind_ok, Run.pure_def]
    split_ifs <;> rfl
  | some pic =>
    simp only [Run.emit_def, Run.bind_ok, Run.pure_def, Run.ofExcept_def]
    split_ifs
    · cases hr : raster_size pic w h proportional with
      | error e => rfl
      | ok d =>
        simp only [Run.bind_ok, set_format_log]
        rfl
    · rw [set_format_log]
      rfl

/-- The last block when nothing was loaded: null, and an error on `stderr`
unless the image is optional. -/
lemma finish_none (cfg : Config) (W : World) (s : Locals) (file_name : CStr) (mode w h : Int)
    (proportional : Bool) (hs : s.loaded_pic = none) :
    finish cfg W s file_name mode w h proportional =
      ⟨if Int.land mode cfg.IMG_NOT_REQUIRED ≠ 0 then []
        else [.stderr_could_not_load file_name, .stderr_SDL_GetError], .ok none⟩ := by
  unfold finish
  rw [hs]
  simp only [Run.emit_def, Run.bind_ok, Run.pure_def]
  split_ifs <;> rfl

/-- First block, name ending in ".svg". -/
lemma try_requested_svg (cfg : Config) (W : World) (s : CStr) (h4 : 4 ≤ s.length)
    (hs : s.drop (s.length - 4) = dot_svg) :
    try_requested cfg W (bytes s) (strlen (bytes s)) = ⟨[], .ok ⟨none, true, bytes s⟩⟩ := by
  unfold try_requested
  rw [strcmp_ne_bytes s h4]
  simp [hs]

/-- First block, the requested name loads. -/
lemma try_requested_hit (cfg : Config) (W : World) (s : CStr) (pic : Surface) (h4 : 4 ≤ s.length)
    (hs : s.drop (s.length - 4) ≠ dot_svg) (hl : W.IMG_Load s = some pic) :
    try_requested cfg W (bytes s) (strlen (bytes s)) =
      ⟨[.IMG_Load s], .ok ⟨some pic, false, bytes s⟩⟩ := by
  unfold try_requested
  rw [strcmp_ne_bytes s h4]
  simp [hs, cstr_bytes, hl]

/-- First block, the requested name does not load and has a dot. -/
lemma try_requested_miss (cfg : Config) (W : World) (s : CStr) (p : Nat) (h4 : 4 ≤ s.length)
    (hs : s.drop (s.length - 4) ≠ dot_svg) (hl : W.IMG_Load s = none)
    (hdot : strrchr s '.' = some p) (hcap : p + 5 ≤ cfg.PATH_MAX) :
    try_requested cfg W (bytes s) (strlen (bytes s)) =
      ⟨[.IMG_Load s], .ok ⟨none, true,
        (bytes s).take p ++ bytes dot_svg ++ (bytes s).drop (p + dot_svg.length + 1)⟩⟩ := by
  have hp := strrchr_lt _ _ _ hdot
  unfold try_requested
  rw [strcmp_ne_bytes s h4]
  simp only [hs, ne_eq, not_false_eq_true, decide_True, Run.ofExcept_def, Run.bind_ok,
    cstr_bytes, hl, hdot, Run.emit_def, if_true]
  rw [poke_ok cfg.PATH_MAX (bytes s) p dot_svg (by simpa [dot_svg] using hcap)
    (by rw [length_bytes]; omega)]
  rfl

/-- First block, the requested name does not load and has no dot. -/
lemma try_requested_no_dot (cfg : Config) (W : World) (s : CStr) (h4 : 4 ≤ s.length)
    (hs : s.drop (s.length - 4) ≠ dot_svg) (hl : W.IMG_Load s = none)
    (hdot : strrchr s '.' = none) :
    try_requested cfg W (bytes s) (strlen (bytes s)) =
      ⟨[.IMG_Load s], .error .null_dereference⟩ := by
  unfold try_requested
  rw [strcmp_ne_bytes s h4]
  simp only [hs, ne_eq, not_false_eq_true, decide_True, Run.ofExcept_def, Run.bind_ok,
    cstr_bytes, hl, hdot, Run.emit_def, if_true]
  rfl

/-- First block, name shorter than four characters. -/
lemma try_requested_short (cfg : Config) (W : World) (s : CStr) (h4 : s.length < 4) :
    try_requested cfg W (bytes s) (strlen (bytes s)) = ⟨[], .error .read_before_buffer⟩ := by
  unfold try_requested
  rw [strcmp_ne_short s h4]
  rfl


/-- The vector block when the size is defined. -/
lemma try_vector_eq (W : World) (s : Locals) (w h : Int) (proportional : Bool) (d : Int × Int)
    (hsize : svg_size W (cstr s.fn 0) w h proportional = .ok d) :
    try_vector W s w h proportional =
      ⟨(if proportional then [.get_svg_dimensions (cstr s.fn 0)] else []) ++
          [.load_svg (cstr s.fn 0) d.1 d.2],
        .ok ⟨load_svg W (cstr s.fn 0) d.1 d.2 none, s.is_svg, s.fn⟩⟩ := by
  unfold try_vector
  rw [hsize]
  cases proportional <;> rfl

/-- The PNG fallback when nothing is loaded and the fallback is switched off. -/
lemma try_png_off (cfg : Config) (W : World) (s : Locals) (fn_len mode : Int)
    (hs : s.loaded_pic = none) (hm : Int.land mode cfg.IMG_NO_PNG_FALLBACK ≠ 0) :
    try_png cfg W s fn_len mode = ⟨[], .ok s⟩ := by
  unfold try_png
  rw [hs]
  simp only [hm, ne_eq, not_false_eq_true, if_true]
  rfl

/-- The PNG fallback when nothing is loaded and the fallback is allowed. -/
lemma try_png_on (cfg : Config) (W : World) (s : Locals) (len : Nat) (mode : Int)
    (hs : s.loaded_pic = none) (hm : Int.land mode cfg.IMG_NO_PNG_FALLBACK = 0)
    (h3 : 3 ≤ len) (hcap : len + 1 ≤ cfg.PATH_MAX) (hb : len - 3 ≤ s.fn.length) :
    try_png cfg W s (len : Int) mode =
      ⟨[.IMG_Load (cstr (s.fn.take (len - 3) ++ bytes png ++ s.fn.drop (len - 3 + png.length + 1)) 0)],
        .ok ⟨W.IMG_Load (cstr (s.fn.take (len - 3) ++ bytes png ++
          s.fn.drop (len - 3 + png.length + 1)) 0), false,
          s.fn.take (len - 3) ++ bytes png ++ s.fn.drop (len - 3 + png.length + 1)⟩⟩ := by
  have e : ((len : Int) - 3) = ((len - 3 : Nat) : Int) := by omega
  unfold try_png
  have hfit : len - 3 + png.length + 1 ≤ cfg.PATH_MAX := by
    simp only [png, List.length_cons, List.length_nil]
    omega
  simp only [hs, e, poke_ok cfg.PATH_MAX s.fn (len - 3) png hfit hb, hm, ne_eq,
    not_true_eq_false, if_false]
  rfl

/-- The PNG fallback when something is loaded. -/
lemma try_png_loaded (cfg : Config) (W : World) (s : Locals) (fn_len mode : Int) (pic : Surface)
    (hs : s.loaded_pic = some pic) : try_png cfg W s fn_len mode = ⟨[], .ok s⟩ := by
  unfold try_png
  rw [hs]
  rfl

/-- The second block when the SVG candidate does not load: the vector part, if
the build has one, leaves nothing loaded and the PNG fallback follows. -/
lemma try_svg_miss (cfg : Config) (W : World) (fn1 : Buf) (svg : CStr) (fn_len mode w h : Int)
    (proportional : Bool) (d : Int × Int) (hc1 : cstr fn1 0 = svg)
    (hsize : svg_size W svg w h proportional = .ok d)
    (hfail : load_svg W svg d.1 d.2 none = none) :
    try_svg cfg W ⟨none, true, fn1⟩ fn_len mode w h proportional =
      ((⟨if cfg.HAVE_RSVG then
          (if proportional then [.get_svg_dimensions svg] else []) ++ [.load_svg svg d.1 d.2]
        else [], .ok ⟨none, true, fn1⟩⟩ : Run Locals) >>= fun s => try_png cfg W s fn_len mode) := by
  cases hr : cfg.HAVE_RSVG with
  | false =>
    unfold try_svg
    simp only [hr, if_true, Bool.false_eq_true, if_false, Run.pure_def]
  | true =>
    have hsize1 : svg_size W (cstr (Locals.mk none true fn1).fn 0) w h proportional = .ok d := by
      simpa only [hc1] using hsize
    unfold try_svg
    simp only [hr, if_true, try_vector_eq W ⟨none, true, fn1⟩ w h proportional d hsize1, hc1,
      hfail]

/-- The loader calls of the vector part. -/
lemma attempts_vector_events (have_rsvg proportional : Bool) (svg : CStr) (d : Int × Int) :
    attempts (if have_rsvg then
        (if proportional then [.get_svg_dimensions svg] else []) ++ [.load_svg svg d.1 d.2]
      else []) = if have_rsvg then [.load_svg svg d.1 d.2] else [] := by
  cases have_rsvg <;> cases proportional <;> rfl

/-- Without truncation `load_image` runs its three blocks on the requested name. -/
lemma load_image_eq (cfg : Config) (W : World) (name : CStr) (mode w h : Int) (proportional : Bool)
    (hcap : name.length < cfg.PATH_MAX) :
    load_image cfg W (some name) mode w h proportional =
      (try_requested cfg W (bytes name) (strlen (bytes name)) >>= fun s =>
        try_svg cfg W s (strlen (bytes name)) mode w h proportional >>= fun s =>
          finish cfg W s name mode w h proportional) := by
  have ht : name.take (cfg.PATH_MAX - 1) = name := List.take_of_length_le (by omega)
  unfold load_image
  simp only [ht]

/-- A name shorter than four characters: the extension test of `load_image`
reads before the buffer, whatever the world and the mode. -/
lemma load_image_short_name (cfg : Config) (W : World) (name : CStr) (mode w h : Int)
    (proportional : Bool) (h4 : name.length < 4) (hcap : name.length < cfg.PATH_MAX) :
    load_image cfg W (some name) mode w h proportional = ⟨[], .error .read_before_buffer⟩ := by
  rw [load_image_eq cfg W name mode w h proportional hcap, try_requested_short cfg W name h4]
  rfl

/-- A name without a dot that does not load: the ".svg" rewrite of `load_image`
goes through the null pointer `strrchr` returns. -/
lemma load_image_no_dot (cfg : Config) (W : World) (name : CStr) (mode w h : Int)
    (proportional : Bool) (h4 : 4 ≤ name.length) (hcap : name.length < cfg.PATH_MAX)
    (hdot : '.' ∉ name) (hl : W.IMG_Load name = none) :
    load_image cfg W (some name) mode w h proportional =
      ⟨[.IMG_Load name], .error .null_dereference⟩ := by
  have hs : name.drop (name.length - 4) ≠ dot_svg := by
    intro hsvg
    apply hdot
    have : '.' ∈ name.drop (name.length - 4) := by
      rw [hsvg]
      decide
    exact List.mem_of_mem_drop this
  rw [load_image_eq cfg W name mode w h proportional hcap,
    try_requested_no_dot cfg W name h4 hs hl ((strrchr_eq_none '.' name).2 hdot)]
  rfl

/-- The first block leaves nothing loaded, and the SVG name in the buffer, when
the requested name ends in ".svg" or does not load. -/
lemma try_requested_to_svg (cfg : Config) (W : World) (name : CStr) (p : Nat)
    (h4 : 4 ≤ name.length) (hcap : name.length + 4 ≤ cfg.PATH_MAX)
    (hdot : strrchr name '.' = some p)
    (hmiss : name.drop (name.length - 4) ≠ dot_svg → W.IMG_Load name = none) :
    ∃ fn1 r, try_requested cfg W (bytes name) (strlen (bytes name)) =
        ⟨if name.drop (name.length - 4) = dot_svg then [] else [.IMG_Load name],
          .ok ⟨none, true, fn1⟩⟩ ∧
      fn1 = (name.take p ++ dot_svg).map some ++ none :: r ∧ name.length + 1 ≤ fn1.length := by
  have hp := strrchr_lt _ _ _ hdot
  by_cases hs : name.drop (name.length - 4) = dot_svg
  · have hp4 : p = name.length - 4 := by
      have := strrchr_of_svg name h4 hs
      rw [hdot] at this
      exact Option.some.inj this
    refine ⟨bytes name, [], ?_, ?_, ?_⟩
    · rw [try_requested_svg cfg W name h4 hs, if_pos hs]
    · have : name.take p ++ dot_svg = name := by
        rw [hp4, ← hs, List.take_append_drop]
      rw [this]
      rfl
    · rw [length_bytes]
  · refine ⟨(bytes name).take p ++ bytes dot_svg ++ (bytes name).drop (p + dot_svg.length + 1),
      (bytes name).drop (p + dot_svg.length + 1), ?_, ?_, ?_⟩
    · rw [try_requested_miss cfg W name p h4 hs (hmiss hs) hdot (by omega), if_neg hs]
    · have h1 : (bytes name).take p = (name.take p).map some := by
        rw [bytes, List.take_append_of_le_length (by simp; omega), List.map_take]
      rw [h1, bytes, List.map_append]
      simp only [List.append_assoc, List.singleton_append]
    · refine le_trans ?_ (length_store (bytes name) p dot_svg (by rw [length_bytes]; omega))
      rw [length_bytes]

/-- The fallback switch for a name of at least four characters that fits the
buffer and has a last dot at offset `p`, so that the SVG candidate is the name
up to the dot followed by ".svg" (the name itself when it ends in ".svg").
Suppose the requested name, unless it ends in ".svg", does not load, and the
SVG candidate, asked for at the size `d` the code computes, does not load. If
`IMG_NO_PNG_FALLBACK` is set in `mode`, `load_image` calls no loader after the
vector one and goes to its failure branch: it returns null, after the two
messages on `stderr` unless `IMG_NOT_REQUIRED` is set. If the flag is not set,
`load_image` calls `IMG_Load` exactly once after the vector loader, on a name
that is the one with "png" for "svg" when the extension has three characters. -/
lemma load_image_png_fallback_switch (cfg : Config) (W : World) (name : CStr)
    (mode w h : Int) (proportional : Bool) (p : Nat) (d : Int × Int)
    (h4 : 4 ≤ name.length) (hcap : name.length + 4 ≤ cfg.PATH_MAX)
    (hdot : strrchr name '.' = some p)
    (hmiss : name.drop (name.length - 4) ≠ dot_svg → W.IMG_Load name = none)
    (hsize : svg_size W (name.take p ++ dot_svg) w h proportional = .ok d)
    (hfail : load_svg W (name.take p ++ dot_svg) d.1 d.2 none = none) :
    (Int.land mode cfg.IMG_NO_PNG_FALLBACK ≠ 0 →
      load_image cfg W (some name) mode w h proportional =
        ⟨(if name.drop (name.length - 4) = dot_svg then [] else [.IMG_Load name]) ++
          (if cfg.HAVE_RSVG then
            (if proportional then [.get_svg_dimensions (name.take p ++ dot_svg)] else []) ++
              [.load_svg (name.take p ++ dot_svg) d.1 d.2]
          else []) ++
          (if Int.land mode cfg.IMG_NOT_REQUIRED ≠ 0 then []
            else [.stderr_could_not_load name, .stderr_SDL_GetError]), .ok none⟩ ∧
      attempts (load_image cfg W (some name) mode w h proportional).log =
        (if name.drop (name.length - 4) = dot_svg then [] else [.IMG_Load name]) ++
        (if cfg.HAVE_RSVG then [.load_svg (name.take p ++ dot_svg) d.1 d.2] else [])) ∧
    (Int.land mode cfg.IMG_NO_PNG_FALLBACK = 0 →
      ∃ n, attempts (load_image cfg W (some name) mode w h proportional).log =
        (if name.drop (name.length - 4) = dot_svg then [] else [.IMG_Load name]) ++
        (if cfg.HAVE_RSVG then [.load_svg (name.take p ++ dot_svg) d.1 d.2] else []) ++
        [.IMG_Load n] ∧
        (p + 4 = name.length → n = name.take p ++ dot_png)) := by
  obtain ⟨fn1, r, h1, hfn1, hlen1⟩ := try_requested_to_svg cfg W name p h4 hcap hdot hmiss
  have hc1 : cstr fn1 0 = name.take p ++ dot_svg := by
    rw [hfn1]
    exact cstr_string_then_zero _ _
  have hv1 := try_svg_miss cfg W fn1 (name.take p ++ dot_svg) (strlen (bytes name))
    mode w h proportional d hc1 hsize hfail
  have hv2 := attempts_vector_events cfg.HAVE_RSVG proportional (name.take p ++ dot_svg) d
  rw [load_image_eq cfg W name mode w h proportional (by omega), h1]
  simp only [Run.bind_ok, hv1]
  constructor
  · intro hm
    simp only [try_png_off cfg W ⟨none, true, fn1⟩ _ mode rfl hm, Run.bind_ok,
      finish_none cfg W ⟨none, true, fn1⟩ name mode w h proportional rfl,
      attempts_append, hv2, true_and, List.append_nil, List.append_assoc]
    split_ifs <;> simp [attempts]
  · intro hm
    have hpng := try_png_on cfg W ⟨none, true, fn1⟩ name.length mode rfl hm (by omega) (by omega)
      (by show name.length - 3 ≤ fn1.length; omega)
    refine ⟨cstr (fn1.take (name.length - 3) ++ bytes png ++
      fn1.drop (name.length - 3 + png.length + 1)) 0, ?_, ?_⟩
    · simp only [strlen_bytes, hpng, Run.bind_ok, attempts_append, finish_attempts, hv2,
        List.append_nil]
      simp [attempts]
    · intro hp4
      rw [hfn1, cstr_store _ _ _ _ _ (by simp [dot_svg]; omega)]
      have : (name.take p ++ dot_svg).take (name.length - 3) = name.take p ++ ['.'] := by
        have hl : (name.take p).length = p := by
          rw [List.length_take]; omega
        rw [List.take_append_eq_append_take, hl, List.take_of_length_le (by omega)]
        have : name.length - 3 - p = 1 := by omega
        rw [this]
        rfl
      rw [this]
      simp [dot_png, png]


/-- The fallback switch at "a.jpg" in a world without files, with the fallback
switched off (mode 33, a required image) and allowed (mode 16). -/
lemma load_image_png_fallback_switch_at_jpg :
    (load_image sampleConfig emptyWorld (some ['a', '.', 'j', 'p', 'g']) 33 (-1) (-1) false =
        ⟨[.IMG_Load ['a', '.', 'j', 'p', 'g'], .load_svg ['a', '.', 's', 'v', 'g'] (-1) (-1),
          .stderr_could_not_load ['a', '.', 'j', 'p', 'g'], .stderr_SDL_GetError], .ok none⟩ ∧
      attempts (load_image sampleConfig emptyWorld (some ['a', '.', 'j', 'p', 'g']) 33 (-1) (-1)
        false).log = [.IMG_Load ['a', '.', 'j', 'p', 'g'], .load_svg ['a', '.', 's', 'v', 'g'] (-1) (-1)]) ∧
    ∃ n, attempts (load_image sampleConfig emptyWorld (some ['a', '.', 'j', 'p', 'g']) 16 (-1) (-1)
        false).log = [.IMG_Load ['a', '.', 'j', 'p', 'g'],
          .load_svg ['a', '.', 's', 'v', 'g'] (-1) (-1), .IMG_Load n] ∧
      (1 + 4 = 5 → n = ['a', '.', 'p', 'n', 'g']) :=
  ⟨(load_image_png_fallback_switch sampleConfig emptyWorld ['a', '.', 'j', 'p', 'g'] 33 (-1) (-1)
      false 1 (-1, -1) (by decide) (by decide) (by decide) (by decide) (by decide)
      (by decide)).1 (by decide),
    (load_image_png_fallback_switch sampleConfig emptyWorld ['a', '.', 'j', 'p', 'g'] 16 (-1) (-1)
      false 1 (-1, -1) (by decide) (by decide) (by decide) (by decide) (by decide)
      (by decide)).2 (by decide)⟩

/-- C2. For a name of at least four characters that fits the buffer:
if it does not end in ".svg" and the raster loader loads it, `load_image` calls
no other loader, and the surface it hands to `set_format` is that image, zoomed
to the size `d` the code computes when `w` and `h` are positive; if the build
has SVG support and the SVG candidate loads, `load_image` calls no loader after
it and hands the SVG surface to `set_format`. In both cases it returns what
`set_format` returns. -/
theorem load_image_stops_at_first_hit (cfg : Config) (W : World) (name : CStr) (mode w h : Int)
    (proportional : Bool) (h4 : 4 ≤ name.length) (hcap : name.length + 4 ≤ cfg.PATH_MAX) :
    (∀ (pic : Surface) (d : Int × Int), name.drop (name.length - 4) ≠ dot_svg →
      W.IMG_Load name = some pic → raster_size pic w h proportional = .ok d →
      (load_image cfg W (some name) mode w h proportional).log =
        .IMG_Load name ::
          (if 0 < w ∧ 0 < h then [.zoom pic d.1 d.2, .set_format (W.zoom pic d.1 d.2) mode]
            else [.set_format (some pic) mode]) ∧
      attempts (load_image cfg W (some name) mode w h proportional).log = [.IMG_Load name] ∧
      (load_image cfg W (some name) mode w h proportional).res =
        (set_format cfg W (if 0 < w ∧ 0 < h then W.zoom pic d.1 d.2 else some pic) mode).res) ∧
    (∀ (vec : Surface) (p : Nat) (d : Int × Int), cfg.HAVE_RSVG = true →
      strrchr name '.' = some p →
      (name.drop (name.length - 4) ≠ dot_svg → W.IMG_Load name = none) →
      svg_size W (name.take p ++ dot_svg) w h proportional = .ok d →
      load_svg W (name.take p ++ dot_svg) d.1 d.2 none = some vec →
      (load_image cfg W (some name) mode w h proportional).log =
        (if name.drop (name.length - 4) = dot_svg then [] else [.IMG_Load name]) ++
        (if proportional then [.get_svg_dimensions (name.take p ++ dot_svg)] else []) ++
        [.load_svg (name.take p ++ dot_svg) d.1 d.2, .set_format (some vec) mode] ∧
      attempts (load_image cfg W (some name) mode w h proportional).log =
        (if name.drop (name.length - 4) = dot_svg then [] else [.IMG_Load name]) ++
        [.load_svg (name.take p ++ dot_svg) d.1 d.2] ∧
      (load_image cfg W (some name) mode w h proportional).res =
        (set_format cfg W (some vec) mode).res) := by
  constructor
  · intro pic d hns hload hd
    have hlog : (load_image cfg W (some name) mode w h proportional).log =
        .IMG_Load name ::
          (if 0 < w ∧ 0 < h then [.zoom pic d.1 d.2, .set_format (W.zoom pic d.1 d.2) mode]
            else [.set_format (some pic) mode]) ∧
        (load_image cfg W (some name) mode w h proportional).res =
        (set_format cfg W (if 0 < w ∧ 0 < h then W.zoom pic d.1 d.2 else some pic) mode).res := by
      rw [load_image_eq cfg W name mode w h proportional (by omega),
        try_requested_hit cfg W name pic h4 hns hload]
      simp only [Run.bind_ok]
      unfold try_svg finish
      simp only [Bool.false_eq_true, if_false, Run.pure_def, Run.bind_ok, List.nil_append,
        true_and, Run.ofExcept_def, hd, Run.emit_def]
      by_cases hwh : 0 < w ∧ 0 < h
      · simp only [hwh, and_self, if_true, Run.bind_ok, set_format_log, List.singleton_append,
          List.cons_append, List.nil_append]
      · simp only [hwh, if_false, set_format_log, List.singleton_append, and_self]
    refine ⟨hlog.1, ?_, hlog.2⟩
    rw [hlog.1]
    split_ifs <;> rfl
  · intro vec p d hr hdot hmiss hsize hload
    obtain ⟨fn1, r, h1, hfn1, _⟩ := try_requested_to_svg cfg W name p h4 hcap hdot hmiss
    have hc1 : cstr fn1 0 = name.take p ++ dot_svg := by
      rw [hfn1]
      exact cstr_string_then_zero _ _
    have hsize1 : svg_size W (cstr (Locals.mk none true fn1).fn 0) w h proportional = .ok d := by
      simpa only [hc1] using hsize
    have hlog : (load_image cfg W (some name) mode w h proportional).log =
        (if name.drop (name.length - 4) = dot_svg then [] else [.IMG_Load name]) ++
        (if proportional then [.get_svg_dimensions (name.take p ++ dot_svg)] else []) ++
        [.load_svg (name.take p ++ dot_svg) d.1 d.2, .set_format (some vec) mode] ∧
        (load_image cfg W (some name) mode w h proportional).res =
        (set_format cfg W (some vec) mode).res := by
      rw [load_image_eq cfg W name mode w h proportional (by omega), h1]
      simp only [Run.bind_ok]
      unfold try_svg
      simp only [hr, if_true, try_vector_eq W ⟨none, true, fn1⟩ w h proportional d hsize1, hc1,
        hload, Run.bind_ok,
        try_png_loaded cfg W ⟨some vec, true, fn1⟩ _ mode vec rfl, List.append_nil]
      unfold finish
      simp only [Bool.true_eq_false, false_and, if_false, set_format_log, List.append_assoc,
        List.singleton_append, and_true]
    refine ⟨hlog.1, ?_, hlog.2⟩
    rw [hlog.1]
    simp only [attempts_append]
    split_ifs <;> simp [attempts]


/-- The witness of C2: in the sample world "a.png" loads as a raster image, and
"b.png" does not but its SVG candidate "b.svg" does. -/
theorem load_image_stops_at_first_hit_witness :
    attempts (load_image sampleConfig sampleWorld (some ['a', '.', 'p', 'n', 'g']) 1 (-1) (-1)
        false).log = [.IMG_Load ['a', '.', 'p', 'n', 'g']] ∧
    attempts (load_image sampleConfig sampleWorld (some ['b', '.', 'p', 'n', 'g']) 1 (-1) (-1)
        false).log = [.IMG_Load ['b', '.', 'p', 'n', 'g'],
          .load_svg ['b', '.', 's', 'v', 'g'] (-1) (-1)] :=
  ⟨((load_image_stops_at_first_hit sampleConfig sampleWorld ['a', '.', 'p', 'n', 'g'] 1 (-1) (-1)
      false (by decide) (by decide)).1 ⟨1, 10, 20⟩ (-1, -1) (by decide) (by decide)
      (by decide)).2.1,
    ((load_image_stops_at_first_hit sampleConfig sampleWorld ['b', '.', 'p', 'n', 'g'] 1 (-1) (-1)
      false (by decide) (by decide)).2 ⟨2, 10, 10⟩ 1 (-1, -1) (by decide) (by decide) (by decide)
      (by decide) (by decide)).2.1⟩

/-- C1. The requested name "a.jpeg" in a build with SVG support, when no file
loads: the loaders are called on "a.jpeg", on "a.svg" and then on "a.spng", not
on "a.png". -/
theorem load_image_jpeg_candidates :
    attempts (load_image sampleConfig emptyWorld (some ['a', '.', 'j', 'p', 'e', 'g']) 16 (-1) (-1)
      false).log =
      [.IMG_Load ['a', '.', 'j', 'p', 'e', 'g'], .load_svg ['a', '.', 's', 'v', 'g'] (-1) (-1),
        .IMG_Load ['a', '.', 's', 'p', 'n', 'g']] := by
  decide

/-- C7. The requested name "a.jpeg" in a build with SVG support, when no file
loads. With `IMG_NO_PNG_FALLBACK` set (mode 33) `load_image` calls no loader
after the vector one and returns null after the two messages. With the flag not
set (mode 1) the one raster call after the SVG failure is on "a.spng": the PNG
equivalent "a.png" of the SVG candidate "a.svg" is not attempted at all. -/
theorem load_image_jpeg_png_equivalent_not_attempted :
    load_image sampleConfig emptyWorld (some ['a', '.', 'j', 'p', 'e', 'g']) 33 (-1) (-1) false =
      ⟨[.IMG_Load ['a', '.', 'j', 'p', 'e', 'g'], .load_svg ['a', '.', 's', 'v', 'g'] (-1) (-1),
        .stderr_could_not_load ['a', '.', 'j', 'p', 'e', 'g'], .stderr_SDL_GetError],
        .ok none⟩ ∧
    load_image sampleConfig emptyWorld (some ['a', '.', 'j', 'p', 'e', 'g']) 1 (-1) (-1) false =
      ⟨[.IMG_Load ['a', '.', 'j', 'p', 'e', 'g'], .load_svg ['a', '.', 's', 'v', 'g'] (-1) (-1),
        .IMG_Load ['a', '.', 's', 'p', 'n', 'g'],
        .stderr_could_not_load ['a', '.', 'j', 'p', 'e', 'g'], .stderr_SDL_GetError],
        .ok none⟩ ∧
    Event.IMG_Load ['a', '.', 'p', 'n', 'g'] ∉
      (load_image sampleConfig emptyWorld (some ['a', '.', 'j', 'p', 'e', 'g']) 1 (-1) (-1)
        false).log :=
  ⟨rfl, rfl, by decide⟩

/-- C3. A required image (mode `IMG_REGULAR`, without `IMG_NOT_REQUIRED`) of
which no candidate loads: `load_image` writes the two error messages and then
returns null to its caller. -/
theorem load_image_required_failure_returns :
    load_image sampleConfig emptyWorld (some ['a', '.', 'p', 'n', 'g']) 1 (-1) (-1) false =
      ⟨[.IMG_Load ['a', '.', 'p', 'n', 'g'], .load_svg ['a', '.', 's', 'v', 'g'] (-1) (-1),
        .IMG_Load ['a', '.', 'p', 'n', 'g'], .stderr_could_not_load ['a', '.', 'p', 'n', 'g'],
        .stderr_SDL_GetError], .ok none⟩ := by
  rfl

/-- C6. An SVG sprite file whose description announces 31 frames, with
`MAX_SPRITE_FRAMES = 30`: `load_sprite` stores `frame[30]`, outside the array.
With -1 in the description it returns a sprite whose `num_frames` is -1. -/
theorem load_sprite_svg_frame_count_unchecked :
    (load_sprite sampleConfig (spriteWorld 31) ['t', 'u', 'x'] 1 (-1) (-1) false).res =
      .error (.frame_index_out_of_bounds 30) ∧
    (load_sprite sampleConfig (spriteWorld (-1)) ['t', 'u', 'x'] 1 (-1) (-1) false).res =
      .ok (some ⟨[], some ⟨3, 10, 10⟩, -1, 0⟩) := by
  decide

/-- C10. The name "ab": the ".svg" comparison reads at offset -2 of the buffer.
The name "abcd", which does not load: `strrchr` returns null and the ".svg"
rewrite goes through it. The name "a.jpeg", of six characters: the first block
leaves the candidate "a.svg" in the buffer, and the "png" rewrite at offset
6 - 3 stores its terminator one byte past that of the candidate, which becomes
"a.spng". -/
theorem load_image_name_handling_faults :
    load_image sampleConfig emptyWorld (some ['a', 'b']) 16 (-1) (-1) false =
      ⟨[], .error .read_before_buffer⟩ ∧
    load_image sampleConfig emptyWorld (some ['a', 'b', 'c', 'd']) 16 (-1) (-1) false =
      ⟨[.IMG_Load ['a', 'b', 'c', 'd']], .error .null_dereference⟩ ∧
    try_requested sampleConfig emptyWorld (bytes ['a', '.', 'j', 'p', 'e', 'g']) 6 =
      ⟨[.IMG_Load ['a', '.', 'j', 'p', 'e', 'g']],
        .ok ⟨none, true, bytes ['a', '.', 's', 'v', 'g'] ++ [none]⟩⟩ ∧
    poke sampleConfig.PATH_MAX (bytes ['a', '.', 's', 'v', 'g'] ++ [none]) (6 - 3) png =
      .ok (bytes ['a', '.', 's', 'p', 'n', 'g']) := by
  refine ⟨rfl, rfl, rfl, ?_⟩
  decide


/-! ## The PNG frame loop of `load_sprite` -/

lemma Run.eq_of_res {α : Type} (x : Run α) (a : α) (h : x.res = .ok a) : x = ⟨x.log, .ok a⟩ := by
  cases x with
  | mk l r =>
    simp only at h
    rw [h]

lemma sprintf_fn_ok (cfg : Config) (s : CStr) (h : s.length < cfg.PATH_MAX) :
    sprintf_fn cfg s = .ok s := by
  have : ¬ cfg.PATH_MAX < s.length + 1 := by omega
  simp only [sprintf_fn, this, if_false]

lemma store_frame_ok (cfg : Config) (frame : List (Option Surface)) (i : Nat) (v : Option Surface)
    (h : i < cfg.MAX_SPRITE_FRAMES) : store_frame cfg frame i v = .ok (frame ++ [v]) := by
  have : ¬ cfg.MAX_SPRITE_FRAMES ≤ i := by omega
  simp only [store_frame, this, if_false]

/-- The frame loop from index `i` with `n` iterations left, when the frames
`i .. k-1` load and frame `k`, if the loop reaches it, does not. -/
lemma png_frames_eq (cfg : Config) (W : World) (name : CStr) (mode w h : Int) (proportional : Bool)
    (pics : Nat → Surface) (k : Nat) :
    ∀ (n i : Nat) (s : sprite), i ≤ k → k ≤ i + n → i + n ≤ cfg.MAX_SPRITE_FRAMES →
      (∀ j, j < cfg.MAX_SPRITE_FRAMES →
        (name ++ Nat.toDigits 10 j ++ dot_png).length < cfg.PATH_MAX) →
      (∀ j, j < k → (load_sprite_image cfg W (name ++ Nat.toDigits 10 j ++ dot_png) mode w h
        proportional).res = .ok (some (pics j))) →
      (k < cfg.MAX_SPRITE_FRAMES → (load_sprite_image cfg W (name ++ Nat.toDigits 10 k ++ dot_png)
        mode w h proportional).res = .ok none) →
      png_frames cfg W name mode w h proportional n i s =
        ⟨(List.range' i (min (k + 1) (i + n) - i)).flatMap fun j =>
            (load_sprite_image cfg W (name ++ Nat.toDigits 10 j ++ dot_png) mode w h
              proportional).log,
          .ok { s with
            frame := s.frame ++ (List.range' i (k - i)).map (fun j => some (pics j)) ++
              (if k < i + n then [none] else []),
            num_frames := if i < k then (k : Int) else s.num_frames }⟩ := by
  intro n
  induction n with
  | zero =>
    intro i s hik hkn _ _ _ _
    have hk : k = i := by omega
    subst hk
    simp [png_frames]
  | succ n ih =>
    intro i s hik hkn hmax hfit hok hstop
    have hi : i < cfg.MAX_SPRITE_FRAMES := by omega
    unfold png_frames
    rw [sprintf_fn_ok cfg _ (hfit i hi)]
    simp only [Run.ofExcept_def, Run.bind_ok, List.nil_append]
    rcases Nat.eq_or_lt_of_le hik with hk | hk
    · subst hk
      have hr := Run.eq_of_res _ _ (hstop hi)
      rw [hr]
      simp only [Run.bind_ok, store_frame_ok cfg s.frame i none hi, Run.pure_def, List.append_nil,
        List.nil_append]
      have h1 : min (i + 1) (i + (n + 1)) - i = 1 := by omega
      have h2 : i < i + (n + 1) := by omega
      simp [h1, h2]
    · have hr := Run.eq_of_res _ _ (hok i hk)
      rw [hr]
      simp only [Run.bind_ok, store_frame_ok cfg s.frame i (some (pics i)) hi, List.nil_append]
      rw [ih (i + 1) { s with frame := s.frame ++ [some (pics i)], num_frames := (i : Int) + 1 }
        (by omega) (by omega) (by omega) hfit hok hstop]
      have h1 : min (k + 1) (i + (n + 1)) - i = (min (k + 1) (i + 1 + n) - (i + 1)) + 1 := by omega
      have h2 : k - i = (k - (i + 1)) + 1 := by omega
      have h3 : (k < i + 1 + n) = (k < i + (n + 1)) := by
        rw [Nat.add_right_comm, Nat.add_assoc]
      have h4 : (if i + 1 < k then (k : Int) else (i : Int) + 1) = (k : Int) := by
        split_ifs <;> omega
      simp only [h1, h2, List.range'_succ, List.flatMap_cons, List.map_cons, h3, h4, hk, if_true,
        List.append_assoc, List.singleton_append, List.cons_append, List.nil_append]


/-- The SVG block of `load_sprite` when the build has no SVG support or the
sprite has no SVG file. -/
lemma try_svg_sprite_absent (cfg : Config) (W : World) (name : CStr) (mode w h : Int)
    (proportional : Bool) (hsvg : cfg.HAVE_RSVG = false ∨
      ((name ++ dot_svg).length < cfg.PATH_MAX ∧ W.fopen (name ++ dot_svg) = false)) :
    try_svg_sprite cfg W name mode w h proportional = ⟨[], .ok none⟩ := by
  unfold try_svg_sprite
  rcases hsvg with h0 | ⟨h1, h2⟩
  · simp only [h0, Bool.false_eq_true, if_false, Run.pure_def]
  · split_ifs
    · unfold svg_sprite_block
      rw [sprintf_fn_ok cfg _ h1]
      simp only [Run.ofExcept_def, Run.bind_ok, h2, Bool.false_eq_true, if_false, Run.pure_def,
        List.append_nil]
    · rfl

/-- The SVG block of `load_sprite` when the SVG file of the sprite exists and
librsvg cannot open it, in a load that is not proportional. -/
lemma try_svg_sprite_unreadable (cfg : Config) (W : World) (name : CStr) (mode w h : Int)
    (hfit : (name ++ dot_svg).length < cfg.PATH_MAX)
    (hopen : W.rsvg_handle_new_from_file (name ++ dot_svg) = none) :
    try_svg_sprite cfg W name mode w h false = ⟨[], .ok none⟩ := by
  unfold try_svg_sprite
  split_ifs
  · unfold svg_sprite_block
    rw [sprintf_fn_ok cfg _ hfit]
    simp only [Run.ofExcept_def, Run.bind_ok, Bool.false_eq_true, if_false, Run.pure_def,
      List.append_nil, List.nil_append, load_svg_sprite, hopen, pure, Except.pure]
    split_ifs <;> rfl
  · rfl

/-- A sequence whose second part never ends with the result `b` does not end
with it. -/
lemma Run.bind_res_ne {α β : Type} (x : Run α) (f : α → Run β) (b : β)
    (hf : ∀ a, (f a).res ≠ .ok b) : (x >>= f).res ≠ .ok b := by
  cases x with
  | mk l r =>
    cases r with
    | error e =>
      intro h
      cases h
    | ok a => exact hf a

/-- A sequence that starts with a pure step and ends with a result: the pure
step has a value and the sequence is its continuation at that value. -/
lemma Run.ofExcept_bind_cases {α β : Type} (x : Except Fault α) (f : α → Run β) (b : β)
    (h : (Run.ofExcept x >>= f).res = .ok b) :
    ∃ a, x = .ok a ∧ (Run.ofExcept x >>= f) = f a ∧ (f a).res = .ok b := by
  cases x with
  | error e => cases h
  | ok a =>
    refine ⟨a, rfl, ?_, ?_⟩
    · simp only [Run.ofExcept_def, Run.bind_ok, List.nil_append]
    · simpa only [Run.ofExcept_def, Run.bind_ok, List.nil_append] using h

/-- When the SVG block of `load_sprite` leaves `new_sprite` null it has called
nothing that is recorded. -/
lemma try_svg_sprite_log_of_none (cfg : Config) (W : World) (name : CStr) (mode w h : Int)
    (proportional : Bool)
    (hnone : (try_svg_sprite cfg W name mode w h proportional).res = .ok none) :
    try_svg_sprite cfg W name mode w h proportional = ⟨[], .ok none⟩ := by
  unfold try_svg_sprite at hnone ⊢
  by_cases hr : cfg.HAVE_RSVG = true
  · rw [if_pos hr] at hnone ⊢
    unfold svg_sprite_block at hnone ⊢
    obtain ⟨fn, -, hfn, hnone⟩ := Run.ofExcept_bind_cases _ _ _ hnone
    rw [hfn]
    by_cases hopen : W.fopen fn = true
    · rw [if_pos hopen] at hnone ⊢
      obtain ⟨d, -, hd, hnone⟩ := Run.ofExcept_bind_cases _ _ _ hnone
      rw [hd]
      obtain ⟨v, -, hv, hnone⟩ := Run.ofExcept_bind_cases _ _ _ hnone
      rw [hv]
      cases v with
      | none => rfl
      | some sp =>
        exfalso
        refine Run.bind_res_ne (set_format cfg W sp.default_img mode) _ none ?_ hnone
        intro _
        refine Run.bind_res_ne (set_format_frames cfg W mode sp.frame) _ none ?_
        intro _ hcon
        cases hcon
    · rw [if_neg hopen]
      rfl
  · rw [if_neg hr]
    rfl

/-- C8. The PNG path of `load_sprite`: the SVG block leaves `new_sprite` null
(the build has no SVG support, the sprite has no SVG file, or the SVG file
cannot be loaded as a sprite), for a name whose file names fit the buffer.
Suppose the default image load returns, the frames `0 .. k-1` load and, when
`k < MAX_SPRITE_FRAMES`, frame `k` does not. Then `load_sprite` loads the
default image and then the frames `name0.png, name1.png, ...` in this order up
to and including frame `k` (up to `MAX_SPRITE_FRAMES - 1` when none fails) and
no further; it returns null when `k = 0`, whatever the default image did, and
otherwise a sprite with `num_frames = k`, cursor 0 and the `k` loaded frames in
`frame[0 .. k-1]`. -/
theorem load_sprite_png_frame_discovery (cfg : Config) (W : World) (name : CStr) (mode w h : Int)
    (proportional : Bool) (k : Nat) (pics : Nat → Surface) (dflt : Option Surface)
    (hsvg : (try_svg_sprite cfg W name mode w h proportional).res = .ok none)
    (hfitd : (name ++ d_png).length < cfg.PATH_MAX)
    (hfit : ∀ j, j < cfg.MAX_SPRITE_FRAMES →
      (name ++ Nat.toDigits 10 j ++ dot_png).length < cfg.PATH_MAX)
    (hk : k ≤ cfg.MAX_SPRITE_FRAMES)
    (hd : (load_sprite_image cfg W (name ++ d_png) mode w h proportional).res = .ok dflt)
    (hok : ∀ j, j < k → (load_sprite_image cfg W (name ++ Nat.toDigits 10 j ++ dot_png) mode w h
      proportional).res = .ok (some (pics j)))
    (hstop : k < cfg.MAX_SPRITE_FRAMES → (load_sprite_image cfg W
      (name ++ Nat.toDigits 10 k ++ dot_png) mode w h proportional).res = .ok none) :
    (load_sprite cfg W name mode w h proportional).res =
      .ok (if k = 0 then none
        else some ⟨(List.range k).map (fun j => some (pics j)) ++
          (if k < cfg.MAX_SPRITE_FRAMES then [none] else []), dflt, k, 0⟩) ∧
    (load_sprite cfg W name mode w h proportional).log =
      (load_sprite_image cfg W (name ++ d_png) mode w h proportional).log ++
      (List.range (min (k + 1) cfg.MAX_SPRITE_FRAMES)).flatMap fun j =>
        (load_sprite_image cfg W (name ++ Nat.toDigits 10 j ++ dot_png) mode w h
          proportional).log := by
  have hv := try_svg_sprite_log_of_none cfg W name mode w h proportional hsvg
  rcases hrd : load_sprite_image cfg W (name ++ d_png) mode w h proportional with ⟨l, r⟩
  rw [hrd] at hd
  simp only at hd
  subst hd
  have hpng : load_png_sprite cfg W name mode w h proportional =
      ⟨l ++ (List.range (min (k + 1) cfg.MAX_SPRITE_FRAMES)).flatMap (fun j =>
          (load_sprite_image cfg W (name ++ Nat.toDigits 10 j ++ dot_png) mode w h
            proportional).log),
        .ok ⟨(List.range k).map (fun j => some (pics j)) ++
          (if k < cfg.MAX_SPRITE_FRAMES then [none] else []), dflt,
          if 0 < k then (k : Int) else 0, 0⟩⟩ := by
    unfold load_png_sprite
    rw [sprintf_fn_ok cfg _ hfitd]
    simp only [Run.ofExcept_def, Run.bind_ok, List.nil_append, hrd]
    rw [png_frames_eq cfg W name mode w h proportional pics k cfg.MAX_SPRITE_FRAMES 0
      ⟨[], dflt, 0, 0⟩ (Nat.zero_le _) (by omega) (by omega) hfit hok hstop]
    simp only [Nat.zero_add, Nat.sub_zero, List.nil_append, List.range_eq_range']
  unfold load_sprite
  rw [hv]
  simp only [Run.bind_ok, List.nil_append, hpng]
  by_cases hk0 : k = 0
  · subst hk0
    simp
  · have hpos : 0 < k := Nat.pos_of_ne_zero hk0
    have hne : ¬ ((k : Int) = 0) := by omega
    simp [hk0, hpos, hne]

/-- The witness of C8: the sprite "tux" in a world with the frames "tux0.png"
and "tux1.png", where the file "tux.svg" exists and `load_svg_sprite` returns
null for it. -/
theorem load_sprite_png_frame_discovery_witness :
    (load_sprite sampleConfig tuxWorld ['t', 'u', 'x'] 1 (-1) (-1) false).res =
      .ok (some ⟨[some ⟨4, 10, 20⟩, some ⟨5, 10, 20⟩, none], none, 2, 0⟩) :=
  (load_sprite_png_frame_discovery sampleConfig tuxWorld ['t', 'u', 'x'] 1 (-1) (-1) false 2
    (fun j => if j = 0 then ⟨4, 10, 20⟩ else ⟨5, 10, 20⟩) none (by decide) (by decide)
    (by decide) (by decide) (by decide) (by decide) (by decide)).1


/-! ## Rounding to the nearest integer -/

lemma rne_le (y : ℚ) : (rne y : ℚ) ≤ y + 1 / 2 := by
  have h1 : (⌊y⌋ : ℚ) ≤ y := Int.floor_le y
  unfold rne
  split_ifs with ha hb hc
  · linarith
  · push_cast; linarith
  · linarith
  · push_cast; linarith

lemma le_rne (y : ℚ) : y - 1 / 2 ≤ (rne y : ℚ) := by
  have h2 : y < ⌊y⌋ + 1 := Int.lt_floor_add_one y
  unfold rne
  split_ifs with ha hb hc
  · linarith
  · push_cast; linarith
  · linarith
  · push_cast; linarith

/-- An integer is its own rounding. -/
lemma rne_intCast (m : ℤ) : rne (m : ℚ) = m := by
  unfold rne
  simp

/-- A value strictly within one half of an integer rounds to it. -/
lemma rne_eq_of_near (y : ℚ) (m : ℤ) (h1 : (m : ℚ) - 1 / 2 < y) (h2 : y < m + 1 / 2) :
    rne y = m := by
  have hu := rne_le y
  have hl := le_rne y
  have a : (rne y : ℚ) < m + 1 := by linarith
  have b : (m : ℚ) - 1 < rne y := by linarith
  have a' : rne y < m + 1 := by exact_mod_cast a
  have b' : m - 1 < rne y := by exact_mod_cast b
  omega

/-- Rounding is monotone. -/
lemma rne_mono {x y : ℚ} (h : x ≤ y) : rne x ≤ rne y := by
  have hf : ⌊x⌋ ≤ ⌊y⌋ := Int.floor_le_floor h
  rcases hf.eq_or_lt with he | hlt
  · unfold rne
    rw [he]
    have hxy : x - ⌊y⌋ ≤ y - ⌊y⌋ := by linarith
    split_ifs <;> first | omega | (exfalso; linarith)
  · have h1 : rne x ≤ ⌊x⌋ + 1 := by
      unfold rne
      split_ifs <;> omega
    have h2 : ⌊y⌋ ≤ rne y := by
      unfold rne
      split_ifs <;> omega
    omega


/-! ## Rounding to binary32 -/

lemma log2_eq (x : ℚ) (e : ℤ) (hx : 0 < x) (h1 : (2 : ℚ) ^ e ≤ x) (h2 : x < (2 : ℚ) ^ (e + 1)) :
    Int.log 2 x = e := by
  have a : e ≤ Int.log 2 x :=
    (Int.zpow_le_iff_le_log (R := ℚ) (b := 2) (by norm_num) hx).1 (by simpa using h1)
  have b : Int.log 2 x < e + 1 :=
    (Int.lt_zpow_iff_log_lt (R := ℚ) (b := 2) (by norm_num) hx).1 (by simpa using h2)
  omega

lemma two_zpow_split (e : ℤ) : (2 : ℚ) ^ e = 2 ^ (e - 23) * 2 ^ (23 : ℕ) := by
  rw [← zpow_natCast, ← zpow_add₀ (by norm_num : (2 : ℚ) ≠ 0)]
  congr 1
  omega

lemma two_zpow_succ (e : ℤ) : (2 : ℚ) ^ (e + 1) = 2 ^ e * 2 := by
  rw [zpow_add₀ (by norm_num : (2 : ℚ) ≠ 0), zpow_one]

/-- The binade of a positive value in the normal range. -/
lemma binade_eq (x : ℚ) (e : ℤ) (h1 : (2 : ℚ) ^ e ≤ x) (h2 : x < (2 : ℚ) ^ (e + 1))
    (h3 : -126 ≤ e) : binade x = e := by
  have hx : 0 < x := lt_of_lt_of_le (zpow_pos (by norm_num) e) h1
  unfold binade
  rw [abs_of_pos hx, log2_eq x e hx h1 h2]
  exact max_eq_left h3

/-- Rounding of a positive value of binade `e` in the normal range: the result,
its binade and its distance from the exact value. -/
lemma round32_binade (x : ℚ) (e : ℤ) (h1 : (2 : ℚ) ^ e ≤ x) (h2 : x < (2 : ℚ) ^ (e + 1))
    (h3 : -126 ≤ e) (h4 : e ≤ 126) :
    round32 x = .ok ((rne (x / 2 ^ (e - 23)) : ℚ) * 2 ^ (e - 23)) ∧
    (2 : ℚ) ^ e ≤ (rne (x / 2 ^ (e - 23)) : ℚ) * 2 ^ (e - 23) ∧
    (rne (x / 2 ^ (e - 23)) : ℚ) * 2 ^ (e - 23) ≤ 2 ^ (e + 1) ∧
    x - 2 ^ (e - 23) / 2 ≤ (rne (x / 2 ^ (e - 23)) : ℚ) * 2 ^ (e - 23) ∧
    (rne (x / 2 ^ (e - 23)) : ℚ) * 2 ^ (e - 23) ≤ x + 2 ^ (e - 23) / 2 := by
  have hu : (0 : ℚ) < 2 ^ (e - 23) := zpow_pos (by norm_num) _
  have he : (2 : ℚ) ^ e = 2 ^ (e - 23) * 2 ^ (23 : ℕ) := two_zpow_split e
  have he1 : (2 : ℚ) ^ (e + 1) = 2 ^ (e - 23) * 2 ^ (24 : ℕ) := by
    rw [two_zpow_succ, he]; ring
  set u : ℚ := 2 ^ (e - 23) with hudef
  have hy1 : ((2 ^ 23 : ℤ) : ℚ) ≤ x / u := by
    rw [le_div_iff₀ hu]; push_cast; linarith
  have hy2 : x / u ≤ ((2 ^ 24 : ℤ) : ℚ) := by
    rw [div_le_iff₀ hu]; push_cast; linarith
  have hr1 : (2 ^ 23 : ℤ) ≤ rne (x / u) := by
    have := rne_mono hy1
    rwa [rne_intCast] at this
  have hr2 : rne (x / u) ≤ (2 ^ 24 : ℤ) := by
    have := rne_mono hy2
    rwa [rne_intCast] at this
  have hr1q : ((2 : ℚ) ^ (23 : ℕ)) ≤ (rne (x / u) : ℚ) := by exact_mod_cast hr1
  have hr2q : (rne (x / u) : ℚ) ≤ ((2 : ℚ) ^ (24 : ℕ)) := by exact_mod_cast hr2
  have hlo : (2 : ℚ) ^ e ≤ (rne (x / u) : ℚ) * u := by
    rw [he]; nlinarith
  have hhi : (rne (x / u) : ℚ) * u ≤ 2 ^ (e + 1) := by
    rw [he1]; nlinarith
  have hxu : x / u * u = x := div_mul_cancel₀ x (ne_of_gt hu)
  have hd1 : x - u / 2 ≤ (rne (x / u) : ℚ) * u := by
    have := le_rne (x / u)
    nlinarith
  have hd2 : (rne (x / u) : ℚ) * u ≤ x + u / 2 := by
    have := rne_le (x / u)
    nlinarith
  refine ⟨?_, hlo, hhi, hd1, hd2⟩
  have hb : ulp32 x = u := by
    unfold ulp32
    rw [binade_eq x e h1 h2 h3]
  have hpos : 0 < (rne (x / u) : ℚ) * u := lt_of_lt_of_le (zpow_pos (by norm_num) e) hlo
  have hfin : |(rne (x / u) : ℚ) * u| < 2 ^ 128 := by
    rw [abs_of_pos hpos]
    have : (2 : ℚ) ^ (e + 1) ≤ 2 ^ (127 : ℤ) := zpow_le_zpow_right₀ (by norm_num) (by omega)
    have h128 : (2 : ℚ) ^ (127 : ℤ) < 2 ^ 128 := by norm_num
    linarith
  unfold round32
  rw [hb, if_pos hfin]


/-- The binade of a positive value of the normal range exists. -/
lemma exists_binade (x : ℚ) (h0 : (2 : ℚ) ^ (-126 : ℤ) ≤ x) (h1 : x < (2 : ℚ) ^ (127 : ℤ)) :
    ∃ e : ℤ, (2 : ℚ) ^ e ≤ x ∧ x < (2 : ℚ) ^ (e + 1) ∧ -126 ≤ e ∧ e ≤ 126 := by
  have hx : 0 < x := lt_of_lt_of_le (zpow_pos (by norm_num) _) h0
  refine ⟨Int.log 2 x, ?_, ?_, ?_, ?_⟩
  · simpa using Int.zpow_log_le_self (R := ℚ) (b := 2) (by norm_num) hx
  · simpa using Int.lt_zpow_succ_log_self (R := ℚ) (b := 2) (by norm_num) x
  · exact (Int.zpow_le_iff_le_log (R := ℚ) (b := 2) (by norm_num) hx).1 (by simpa using h0)
  · have := (Int.lt_zpow_iff_log_lt (R := ℚ) (b := 2) (by norm_num) hx).1 (by simpa using h1)
    omega

/-- Rounding a positive value of the normal range succeeds, with a relative
error of at most `2 ^ (-24)`. -/
lemma round32_near (x : ℚ) (h0 : (2 : ℚ) ^ (-126 : ℤ) ≤ x) (h1 : x < (2 : ℚ) ^ (127 : ℤ)) :
    ∃ v, round32 x = .ok v ∧ x * (1 - 1 / 2 ^ 24) ≤ v ∧ v ≤ x * (1 + 1 / 2 ^ 24) := by
  obtain ⟨e, he1, he2, he3, he4⟩ := exists_binade x h0 h1
  obtain ⟨hr, _, _, hd1, hd2⟩ := round32_binade x e he1 he2 he3 he4
  have hsplit := two_zpow_split e
  have hu : (0 : ℚ) < 2 ^ (e - 23) := zpow_pos (by norm_num) _
  refine ⟨_, hr, ?_, ?_⟩
  · have : (2 : ℚ) ^ (e - 23) / 2 ≤ x * (1 / 2 ^ 24) := by
      rw [hsplit] at he1
      norm_num at he1 ⊢
      linarith
    linarith
  · have : (2 : ℚ) ^ (e - 23) / 2 ≤ x * (1 / 2 ^ 24) := by
      rw [hsplit] at he1
      norm_num at he1 ⊢
      linarith
    linarith

/-- Rounding is monotone on the positive values of the normal range. -/
lemma round32_mono (x y vx vy : ℚ) (h0 : (2 : ℚ) ^ (-126 : ℤ) ≤ x) (hxy : x ≤ y)
    (h1 : y < (2 : ℚ) ^ (127 : ℤ)) (hx : round32 x = .ok vx) (hy : round32 y = .ok vy) :
    vx ≤ vy := by
  obtain ⟨e, he1, he2, he3, he4⟩ := exists_binade x h0 (lt_of_le_of_lt hxy h1)
  obtain ⟨f, hf1, hf2, hf3, hf4⟩ := exists_binade y (le_trans h0 hxy) h1
  obtain ⟨hrx, _, hxhi, _, _⟩ := round32_binade x e he1 he2 he3 he4
  obtain ⟨hry, hylo, _, _, _⟩ := round32_binade y f hf1 hf2 hf3 hf4
  rw [hrx] at hx
  rw [hry] at hy
  have hvx := Except.ok.inj hx
  have hvy := Except.ok.inj hy
  subst hvx
  subst hvy
  have hef : e ≤ f := by
    by_contra hcon
    have hfe : f + 1 ≤ e := by omega
    have : (2 : ℚ) ^ (f + 1) ≤ 2 ^ e := zpow_le_zpow_right₀ (by norm_num) hfe
    linarith
  rcases hef.eq_or_lt with heq | hlt
  · subst heq
    have hu : (0 : ℚ) < 2 ^ (e - 23) := zpow_pos (by norm_num) _
    have hdiv : x / 2 ^ (e - 23) ≤ y / 2 ^ (e - 23) := div_le_div_of_nonneg_right hxy hu.le
    have := rne_mono hdiv
    have hq : (rne (x / 2 ^ (e - 23)) : ℚ) ≤ rne (y / 2 ^ (e - 23)) := by exact_mod_cast this
    exact mul_le_mul_of_nonneg_right hq hu.le
  · have : (2 : ℚ) ^ (e + 1) ≤ 2 ^ f := zpow_le_zpow_right₀ (by norm_num) (by omega)
    linarith

/-- A positive integer below `2 ^ 24` is a binary32 value. -/
lemma round32_int_exact (n : ℤ) (h0 : 0 < n) (h1 : n < 2 ^ 24) : round32 (n : ℚ) = .ok (n : ℚ) := by
  have hq0 : (2 : ℚ) ^ (-126 : ℤ) ≤ (n : ℚ) := by
    have a : (2 : ℚ) ^ (-126 : ℤ) ≤ 1 := by
      rw [zpow_neg]
      exact inv_le_one_of_one_le₀ (one_le_zpow₀ (by norm_num) (by norm_num))
    have b : (1 : ℚ) ≤ n := by exact_mod_cast h0
    linarith
  have hq1 : (n : ℚ) < (2 : ℚ) ^ (127 : ℤ) := by
    have a : (n : ℚ) < 2 ^ 24 := by exact_mod_cast h1
    have b : (2 : ℚ) ^ 24 ≤ (2 : ℚ) ^ (127 : ℤ) := by norm_num
    linarith
  obtain ⟨e, he1, he2, he3, he4⟩ := exists_binade (n : ℚ) hq0 hq1
  obtain ⟨hr, _, _, _, _⟩ := round32_binade (n : ℚ) e he1 he2 he3 he4
  have he23 : e ≤ 23 := by
    by_contra hcon
    have : (2 : ℚ) ^ (24 : ℤ) ≤ 2 ^ e := zpow_le_zpow_right₀ (by norm_num) (by omega)
    have a : (n : ℚ) < 2 ^ 24 := by exact_mod_cast h1
    norm_num at this
    linarith
  have hpow : (2 : ℚ) ^ (e - 23) = 1 / 2 ^ (23 - e).toNat := by
    have : e - 23 = -((23 - e).toNat : ℤ) := by omega
    rw [this, zpow_neg, zpow_natCast, one_div]
  have hint : (n : ℚ) / 2 ^ (e - 23) = ((n * 2 ^ (23 - e).toNat : ℤ) : ℚ) := by
    rw [hpow]
    push_cast
    field_simp
  rw [hr, hint, rne_intCast, hpow]
  push_cast
  congr 1
  field_simp


/-! ## The arithmetic of `fit_in_rectangle` -/

lemma float_to_int_floor (x : ℚ) (h0 : 0 ≤ x) (h1 : x < 2 ^ 31) : float_to_int x = .ok ⌊x⌋ := by
  have a : (0 : ℤ) ≤ ⌊x⌋ := Int.floor_nonneg.2 h0
  have b : ⌊x⌋ < 2 ^ 31 := by
    have : (⌊x⌋ : ℚ) ≤ x := Int.floor_le x
    have c : (⌊x⌋ : ℚ) < ((2 ^ 31 : ℤ) : ℚ) := by push_cast; linarith
    exact_mod_cast c
  have c : -(2 ^ 31 : ℤ) ≤ ⌊x⌋ := by omega
  simp only [float_to_int, h0, if_true, c, b, and_self]

lemma fmin_le_left (a b : ℚ) : fmin a b ≤ a := by
  unfold fmin
  split_ifs <;> linarith

lemma fmin_le_right (a b : ℚ) : fmin a b ≤ b := by
  unfold fmin
  split_ifs <;> linarith

lemma fmin_cases (a b : ℚ) : fmin a b = a ∨ fmin a b = b := by
  unfold fmin
  split_ifs
  · exact Or.inl rfl
  · exact Or.inr rfl

/-- The steps of `fit_in_rectangle` once each of them is known to succeed. -/
lemma fit_in_rectangle_steps (width height max_width max_height : Int)
    (W H MW MH sw sh pw ph : ℚ) (nw nh : Int)
    (hMW : int_to_float max_width = .ok MW) (hW : int_to_float width = .ok W)
    (hMH : int_to_float max_height = .ok MH) (hH : int_to_float height = .ok H)
    (hsw : f32_div MW W = .ok sw) (hsh : f32_div MH H = .ok sh)
    (hpw : f32_mul W (fmin sw sh) = .ok pw) (hph : f32_mul H (fmin sw sh) = .ok ph)
    (hnw : float_to_int pw = .ok nw) (hnh : float_to_int ph = .ok nh) :
    fit_in_rectangle width height max_width max_height = .ok (nw, nh) := by
  unfold fit_in_rectangle
  simp only [hMW, hW, hMH, hH, hsw, hsh, hpw, hph, hnw, hnh, bind, Except.bind, pure, Except.pure]

/-- An `int` that is positive converts to a positive `float` near it. -/
lemma int_to_float_near (n : Int) (h0 : 0 < n) (h1 : n < 2 ^ 31) :
    ∃ v, int_to_float n = .ok v ∧ (n : ℚ) * (1 - 1 / 2 ^ 24) ≤ v ∧ v ≤ (n : ℚ) * (1 + 1 / 2 ^ 24) := by
  have a : (1 : ℚ) ≤ n := by exact_mod_cast h0
  have b : (n : ℚ) < 2 ^ 31 := by exact_mod_cast h1
  exact round32_near (n : ℚ) (by norm_num; linarith) (by norm_num; linarith)

/-- One dimension of `fit_in_rectangle`: for a `float` `W` of at least one
half, a bound `M` with `1 ≤ M < 2 ^ 23` and a factor `s` between `2 ^ (-34)`
and the rounded ratio `sw` of `M` to `W`, the rounded product of `W` and `s`
is a `float` in `[0, M + 1)`. -/
lemma scaled_dimension (W M sw s : ℚ) (hW0 : 1 / 2 ≤ W)
    (hM1 : M ≤ 2 ^ 23 - 1)
    (hsw : sw ≤ M / W * (1 + 1 / 2 ^ 24)) (hs0 : 1 / 2 ^ 34 ≤ s) (hs : s ≤ sw) :
    ∃ pw, f32_mul W s = .ok pw ∧ W * s * (1 - 1 / 2 ^ 24) ≤ pw ∧ 0 ≤ pw ∧ pw < M + 1 := by
  have hWpos : 0 < W := by linarith
  have hWs : W * s ≤ M * (1 + 1 / 2 ^ 24) := by
    have h1 : W * s ≤ W * sw := mul_le_mul_of_nonneg_left hs hWpos.le
    have h2 : W * sw ≤ W * (M / W * (1 + 1 / 2 ^ 24)) := mul_le_mul_of_nonneg_left hsw hWpos.le
    have h3 : W * (M / W * (1 + 1 / 2 ^ 24)) = M * (1 + 1 / 2 ^ 24) := by
      field_simp
      ring
    linarith
  have hlow : 1 / 2 ^ 35 ≤ W * s := by
    have : (1 / 2 : ℚ) * (1 / 2 ^ 34) ≤ W * s :=
      mul_le_mul hW0 hs0 (by norm_num) hWpos.le
    norm_num at this ⊢
    linarith
  obtain ⟨pw, hpw, hlo, hhi⟩ := round32_near (W * s) (by norm_num at hlow ⊢; linarith)
    (by norm_num at hM1 hWs ⊢; linarith)
  refine ⟨pw, hpw, hlo, ?_, ?_⟩
  · have : 0 ≤ W * s * (1 - 1 / 2 ^ 24) := mul_nonneg (by linarith) (by norm_num)
    linarith
  · have h1 : W * s * (1 + 1 / 2 ^ 24) ≤ M * (1 + 1 / 2 ^ 24) * (1 + 1 / 2 ^ 24) :=
      mul_le_mul_of_nonneg_right hWs (by norm_num)
    norm_num at h1 hM1 hhi ⊢
    linarith

/-- The rounded ratio of a bound `M` with `1 ≤ M < 2 ^ 23` to a positive
`float` `W` below `2 ^ 32`. -/
lemma ratio_near (W M : ℚ) (hW0 : 1 / 2 ≤ W) (hW1 : W < 2 ^ 32) (hM0 : 1 ≤ M)
    (hM1 : M ≤ 2 ^ 23 - 1) :
    ∃ sw, f32_div M W = .ok sw ∧ M / W * (1 - 1 / 2 ^ 24) ≤ sw ∧
      sw ≤ M / W * (1 + 1 / 2 ^ 24) ∧ 1 / 2 ^ 34 ≤ sw := by
  have hWpos : 0 < W := by linarith
  have hlo : 1 / 2 ^ 32 ≤ M / W := by
    rw [le_div_iff₀ hWpos]
    norm_num at hW1 ⊢
    linarith
  have hhi : M / W ≤ 2 ^ 24 := by
    rw [div_le_iff₀ hWpos]
    norm_num at hM1 ⊢
    linarith
  obtain ⟨sw, hsw, h1, h2⟩ := round32_near (M / W) (by norm_num at hlo ⊢; linarith)
    (by norm_num at hhi ⊢; linarith)
  refine ⟨sw, ?_, h1, h2, ?_⟩
  · unfold f32_div
    rw [if_neg (ne_of_gt hWpos), hsw]
  · have : (1 : ℚ) / 2 ^ 32 * (1 - 1 / 2 ^ 24) ≤ M / W * (1 - 1 / 2 ^ 24) :=
      mul_le_mul_of_nonneg_right hlo (by norm_num)
    norm_num at this h1 ⊢
    linarith

/-- C4 (amended). For positive `int` values `width` and `height`, and bounds
`max_width` and `max_height` that are positive and below `2 ^ 23`,
`fit_in_rectangle` returns, and the new width and height are between 0 and
their bounds; this is the size to which `load_image` zooms a raster image of
`width` x `height` pixels in a proportional load. -/
theorem fit_in_rectangle_within_bounds (width height max_width max_height : Int)
    (hw0 : 0 < width) (hw1 : width < 2 ^ 31) (hh0 : 0 < height) (hh1 : height < 2 ^ 31)
    (hmw0 : 0 < max_width) (hmw1 : max_width < 2 ^ 23)
    (hmh0 : 0 < max_height) (hmh1 : max_height < 2 ^ 23) :
    ∃ nw nh, fit_in_rectangle width height max_width max_height = .ok (nw, nh) ∧
      0 ≤ nw ∧ nw ≤ max_width ∧ 0 ≤ nh ∧ nh ≤ max_height ∧
      ∀ pic : Surface, pic.w = width → pic.h = height →
        raster_size pic max_width max_height true = .ok (nw, nh) := by
  obtain ⟨W, hW, hWlo, hWhi⟩ := int_to_float_near width hw0 hw1
  obtain ⟨H, hH, hHlo, hHhi⟩ := int_to_float_near height hh0 hh1
  have hMW : int_to_float max_width = .ok (max_width : ℚ) :=
    round32_int_exact max_width hmw0 (by omega)
  have hMH : int_to_float max_height = .ok (max_height : ℚ) :=
    round32_int_exact max_height hmh0 (by omega)
  have qw0 : (1 : ℚ) ≤ width := by exact_mod_cast hw0
  have qw1 : (width : ℚ) < 2 ^ 31 := by exact_mod_cast hw1
  have qh0 : (1 : ℚ) ≤ height := by exact_mod_cast hh0
  have qh1 : (height : ℚ) < 2 ^ 31 := by exact_mod_cast hh1
  have qmw0 : (1 : ℚ) ≤ max_width := by exact_mod_cast hmw0
  have qmw1 : (max_width : ℚ) ≤ 2 ^ 23 - 1 := by
    have : max_width ≤ 2 ^ 23 - 1 := by omega
    exact_mod_cast this
  have qmh0 : (1 : ℚ) ≤ max_height := by exact_mod_cast hmh0
  have qmh1 : (max_height : ℚ) ≤ 2 ^ 23 - 1 := by
    have : max_height ≤ 2 ^ 23 - 1 := by omega
    exact_mod_cast this
  have hW0 : 1 / 2 ≤ W := by norm_num at hWlo ⊢; linarith
  have hW1 : W < 2 ^ 32 := by norm_num at hWhi ⊢; linarith
  have hH0 : 1 / 2 ≤ H := by norm_num at hHlo ⊢; linarith
  have hH1 : H < 2 ^ 32 := by norm_num at hHhi ⊢; linarith
  obtain ⟨sw, hsw, _, hswhi, hsw0⟩ := ratio_near W max_width hW0 hW1 qmw0 qmw1
  obtain ⟨sh, hsh, _, hshhi, hsh0⟩ := ratio_near H max_height hH0 hH1 qmh0 qmh1
  have hs0 : 1 / 2 ^ 34 ≤ fmin sw sh := by
    rcases fmin_cases sw sh with h | h <;> rw [h] <;> assumption
  obtain ⟨pw, hpw, _, hpw0, hpw1⟩ :=
    scaled_dimension W max_width sw (fmin sw sh) hW0 qmw1 hswhi hs0 (fmin_le_left sw sh)
  obtain ⟨ph, hph, _, hph0, hph1⟩ :=
    scaled_dimension H max_height sh (fmin sw sh) hH0 qmh1 hshhi hs0 (fmin_le_right sw sh)
  have hnw := float_to_int_floor pw hpw0 (by norm_num at qmw1 ⊢; linarith)
  have hnh := float_to_int_floor ph hph0 (by norm_num at qmh1 ⊢; linarith)
  have hfit := fit_in_rectangle_steps width height max_width max_height W H max_width max_height
    sw sh pw ph ⌊pw⌋ ⌊ph⌋ hMW hW hMH hH hsw hsh hpw hph hnw hnh
  refine ⟨⌊pw⌋, ⌊ph⌋, hfit, Int.floor_nonneg.2 hpw0, ?_, Int.floor_nonneg.2 hph0, ?_, ?_⟩
  · have : ⌊pw⌋ < max_width + 1 := Int.floor_lt.2 (by push_cast; exact hpw1)
    omega
  · have : ⌊ph⌋ < max_height + 1 := Int.floor_lt.2 (by push_cast; exact hph1)
    omega
  · intro pic h1 h2
    simp only [raster_size, if_true, h1, h2, hfit]

/-- The witness of C4: an image of 640 x 480 pixels and the bounds 800 x 600. -/
theorem fit_in_rectangle_within_bounds_witness :
    ∃ nw nh, fit_in_rectangle 640 480 800 600 = .ok (nw, nh) ∧
      0 ≤ nw ∧ nw ≤ 800 ∧ 0 ≤ nh ∧ nh ≤ 600 ∧
      ∀ pic : Surface, pic.w = 640 → pic.h = 480 → raster_size pic 800 600 true = .ok (nw, nh) :=
  fit_in_rectangle_within_bounds 640 480 800 600 (by decide) (by decide) (by decide) (by decide)
    (by decide) (by decide) (by decide) (by decide)


/-! ## Evaluation of the arithmetic at given values -/

/-- Rounding of a positive value whose binade and rounded significand are
known. -/
lemma round32_eval (x : ℚ) (e m : ℤ) (h1 : (2 : ℚ) ^ e ≤ x) (h2 : x < (2 : ℚ) ^ (e + 1))
    (h3 : -126 ≤ e) (h4 : e ≤ 126) (hm : rne (x / 2 ^ (e - 23)) = m) :
    round32 x = .ok ((m : ℚ) * 2 ^ (e - 23)) := by
  rw [(round32_binade x e h1 h2 h3 h4).1, hm]

/-- A value halfway between two integers rounds to the even one. -/
lemma rne_half (m : ℤ) : rne ((m : ℚ) + 1 / 2) = if m % 2 = 0 then m else m + 1 := by
  have hf : ⌊(m : ℚ) + 1 / 2⌋ = m := by
    rw [Int.floor_eq_iff]
    constructor <;> norm_num
  unfold rne
  rw [hf]
  norm_num

/-- The conversion `(float) 16777219` is 16777220. -/
lemma int_to_float_16777219 : int_to_float 16777219 = .ok 16777220 := by
  have hm : rne ((16777219 : ℚ) / 2 ^ ((24 : ℤ) - 23)) = 8388610 := by
    have : (16777219 : ℚ) / 2 ^ ((24 : ℤ) - 23) = ((8388609 : ℤ) : ℚ) + 1 / 2 := by norm_num
    rw [this, rne_half]
    decide
  have := round32_eval 16777219 24 8388610 (by norm_num) (by norm_num) (by norm_num)
    (by norm_num) hm
  unfold int_to_float
  norm_num at this ⊢
  exact this


/-- A small positive integer literal converts exactly. -/
lemma int_to_float_exact (n : ℤ) (h0 : 0 < n) (h1 : n < 2 ^ 24) :
    int_to_float n = .ok (n : ℚ) := round32_int_exact n h0 h1

/-- The conversion `(float) n` of a small positive literal is exact. -/
lemma int_to_float_lit (n : ℤ) (v : ℚ) (h0 : 0 < n) (h1 : n < 2 ^ 24) (hv : (n : ℚ) = v) :
    int_to_float n = .ok v := by
  rw [← hv]
  exact int_to_float_exact n h0 h1

/-- An integer value below `2 ^ 31` converts to that `int`. -/
lemma float_to_int_intCast (n : ℤ) (h0 : 0 ≤ n) (h1 : n < 2 ^ 31) :
    float_to_int (n : ℚ) = .ok n := by
  have a : (0 : ℚ) ≤ n := by exact_mod_cast h0
  have b : (n : ℚ) < 2 ^ 31 := by exact_mod_cast h1
  rw [float_to_int_floor (n : ℚ) a b, Int.floor_intCast]

/-- With `width = height = 1` and `max_width = max_height = 16777219` the
new width and height are 16777220. -/
lemma fit_in_rectangle_16777219 :
    fit_in_rectangle 1 1 16777219 16777219 = .ok (16777220, 16777220) := by
  have h1 : int_to_float 1 = .ok 1 := int_to_float_lit 1 1 (by norm_num) (by norm_num) (by norm_num)
  have hr : round32 16777220 = .ok 16777220 := by
    have hm : rne ((16777220 : ℚ) / 2 ^ ((24 : ℤ) - 23)) = 8388610 := by
      have : (16777220 : ℚ) / 2 ^ ((24 : ℤ) - 23) = ((8388610 : ℤ) : ℚ) := by norm_num
      rw [this, rne_intCast]
    have := round32_eval 16777220 24 8388610 (by norm_num) (by norm_num) (by norm_num)
      (by norm_num) hm
    norm_num at this ⊢
    exact this
  have hs : f32_div 16777220 1 = .ok 16777220 := by
    unfold f32_div
    rw [if_neg (by norm_num : ¬ (1 : ℚ) = 0), div_one]
    exact hr
  have hmin : fmin (16777220 : ℚ) 16777220 = 16777220 := by
    simp [fmin]
  have hp : f32_mul 1 (fmin 16777220 16777220) = .ok 16777220 := by
    rw [hmin]
    unfold f32_mul
    rw [one_mul]
    exact hr
  have hi : float_to_int 16777220 = .ok 16777220 := by
    have := float_to_int_intCast 16777220 (by norm_num) (by norm_num)
    norm_num at this ⊢
    exact this
  exact fit_in_rectangle_steps 1 1 16777219 16777219 1 1 16777220 16777220 16777220 16777220
    16777220 16777220 16777220 16777220 int_to_float_16777219 h1 int_to_float_16777219 h1 hs hs
    hp hp hi hi

/-- With `width = height = 2049` and `max_width = max_height = 8395777` the
rounded ratio is 4097.5, the exact product 8395777.5 is halfway between two
`float` values and rounds to the even one, and the new width and height are
8395778. -/
lemma fit_in_rectangle_8395777 :
    fit_in_rectangle 2049 2049 8395777 8395777 = .ok (8395778, 8395778) := by
  have hW : int_to_float 2049 = .ok 2049 :=
    int_to_float_lit 2049 2049 (by norm_num) (by norm_num) (by norm_num)
  have hM : int_to_float 8395777 = .ok 8395777 :=
    int_to_float_lit 8395777 8395777 (by norm_num) (by norm_num) (by norm_num)
  have hs : f32_div 8395777 2049 = .ok (8195 / 2) := by
    have hm : rne ((8395777 : ℚ) / 2049 / 2 ^ ((12 : ℤ) - 23)) = 8391680 :=
      rne_eq_of_near _ _ (by norm_num) (by norm_num)
    have := round32_eval (8395777 / 2049) 12 8391680 (by norm_num) (by norm_num) (by norm_num)
      (by norm_num) hm
    unfold f32_div
    rw [if_neg (by norm_num : ¬ (2049 : ℚ) = 0), this]
    norm_num
  have hmin : fmin ((8195 : ℚ) / 2) (8195 / 2) = 8195 / 2 := by
    simp [fmin]
  have hp : f32_mul 2049 (fmin (8195 / 2) (8195 / 2)) = .ok 8395778 := by
    rw [hmin]
    have hm : rne ((2049 : ℚ) * (8195 / 2) / 2 ^ ((23 : ℤ) - 23)) = 8395778 := by
      have : (2049 : ℚ) * (8195 / 2) / 2 ^ ((23 : ℤ) - 23) = ((8395777 : ℤ) : ℚ) + 1 / 2 := by
        norm_num
      rw [this, rne_half]
      decide
    have := round32_eval (2049 * (8195 / 2)) 23 8395778 (by norm_num) (by norm_num)
      (by norm_num) (by norm_num) hm
    unfold f32_mul
    rw [this]
    norm_num
  have hi : float_to_int 8395778 = .ok 8395778 := by
    have := float_to_int_intCast 8395778 (by norm_num) (by norm_num)
    norm_num at this ⊢
    exact this
  exact fit_in_rectangle_steps 2049 2049 8395777 8395777 2049 2049 8395777 8395777 (8195 / 2)
    (8195 / 2) 8395778 8395778 8395778 8395778 hM hW hM hW hs hs hp hp hi hi

/-- C4, as stated, fails. With `width = height = 1` and
`max_width = max_height = 16777219` the conversion `(float) max_width` is
16777220, and `fit_in_rectangle` sets the new width to 16777220, more than
`max_width`. Already with `width = height = 2049` and
`max_width = max_height = 8395777`, little above `2 ^ 23`, the new width is
8395778. -/
theorem fit_in_rectangle_exceeds_large_bound :
    (fit_in_rectangle 1 1 16777219 16777219 = .ok (16777220, 16777220) ∧
      ¬ ((16777220 : Int) ≤ 16777219)) ∧
    (fit_in_rectangle 2049 2049 8395777 8395777 = .ok (8395778, 8395778) ∧
      ¬ ((8395778 : Int) ≤ 8395777)) :=
  ⟨⟨fit_in_rectangle_16777219, by omega⟩, ⟨fit_in_rectangle_8395777, by omega⟩⟩

/-- C5, as stated, fails: an image of 7 x 7 fitted into 31 x 31. Both ratios
are 31/7, the rounded factor is 9287387 / 2 ^ 21, a little below 31/7, the
rounded products are 16252927 / 2 ^ 19, a little below 31, and the new width and
height are 30, not the bound 31. -/
theorem fit_in_rectangle_misses_bound :
    fit_in_rectangle 7 7 31 31 = .ok (30, 30) ∧ ((31 : ℚ) / 7 ≤ (31 : ℚ) / 7) ∧
      ¬ ((30 : Int) = 31) := by
  refine ⟨?_, le_refl _, by omega⟩
  have h7 : int_to_float 7 = .ok 7 := by
    simpa using int_to_float_exact 7 (by norm_num) (by norm_num)
  have h31 : int_to_float 31 = .ok 31 := by
    simpa using int_to_float_exact 31 (by norm_num) (by norm_num)
  have hs : f32_div 31 7 = .ok (9287387 / 2 ^ 21) := by
    have hm : rne ((31 : ℚ) / 7 / 2 ^ ((2 : ℤ) - 23)) = 9287387 :=
      rne_eq_of_near _ _ (by norm_num) (by norm_num)
    have := round32_eval (31 / 7) 2 9287387 (by norm_num) (by norm_num) (by norm_num)
      (by norm_num) hm
    unfold f32_div
    rw [if_neg (by norm_num : ¬ (7 : ℚ) = 0), this]
    norm_num
  have hmin : fmin ((9287387 : ℚ) / 2 ^ 21) (9287387 / 2 ^ 21) = 9287387 / 2 ^ 21 := by
    simp [fmin]
  have hp : f32_mul 7 (fmin (9287387 / 2 ^ 21) (9287387 / 2 ^ 21)) = .ok (16252927 / 2 ^ 19) := by
    rw [hmin]
    have hm : rne ((7 : ℚ) * (9287387 / 2 ^ 21) / 2 ^ ((4 : ℤ) - 23)) = 16252927 :=
      rne_eq_of_near _ _ (by norm_num) (by norm_num)
    have := round32_eval (7 * (9287387 / 2 ^ 21)) 4 16252927 (by norm_num) (by norm_num)
      (by norm_num) (by norm_num) hm
    unfold f32_mul
    rw [this]
    norm_num
  have hi : float_to_int (16252927 / 2 ^ 19) = .ok 30 := by
    have := float_to_int_floor (16252927 / 2 ^ 19) (by norm_num) (by norm_num)
    rw [this]
    exact congrArg Except.ok (Int.floor_eq_iff.2 ⟨by norm_num, by norm_num⟩)
  exact fit_in_rectangle_steps 7 7 31 31 7 7 31 31 (9287387 / 2 ^ 21) (9287387 / 2 ^ 21)
    (16252927 / 2 ^ 19) (16252927 / 2 ^ 19) 30 30 h31 h7 h31 h7 hs hs hp hp hi hi


/-- When the factor is the rounded ratio of the bound `M` to `W`, the rounded
product of `W` and the factor is more than `M - 1`. -/
lemma scaled_dimension_lower (W M sw pw : ℚ) (hW0 : 0 < W) (hM1 : M ≤ 2 ^ 23 - 1)
    (hsw : M / W * (1 - 1 / 2 ^ 24) ≤ sw) (hpw : W * sw * (1 - 1 / 2 ^ 24) ≤ pw) :
    M - 1 ≤ pw := by
  have h1 : W * (M / W * (1 - 1 / 2 ^ 24)) ≤ W * sw := mul_le_mul_of_nonneg_left hsw hW0.le
  have h2 : W * (M / W * (1 - 1 / 2 ^ 24)) = M * (1 - 1 / 2 ^ 24) := by
    field_simp
    ring
  have h3 : M * (1 - 1 / 2 ^ 24) * (1 - 1 / 2 ^ 24) ≤ W * sw * (1 - 1 / 2 ^ 24) :=
    mul_le_mul_of_nonneg_right (by linarith) (by norm_num)
  norm_num at h3 hpw hM1 ⊢
  linarith

/-- C5 (amended). For positive `width` and `height` below `2 ^ 24` and positive
bounds below `2 ^ 23`, `fit_in_rectangle` multiplies both dimensions by one and
the same factor, the smaller of the two binary32 ratios `sw` and `sh`, rounds
each product to binary32 (`pw`, `ph`) and discards the fraction. The dimension
whose exact ratio is the smaller one ends at its bound or one below it: the
width when `max_width / width ≤ max_height / height`, the height otherwise. -/
theorem fit_in_rectangle_smaller_ratio (width height max_width max_height : Int)
    (hw0 : 0 < width) (hw1 : width < 2 ^ 24) (hh0 : 0 < height) (hh1 : height < 2 ^ 24)
    (hmw0 : 0 < max_width) (hmw1 : max_width < 2 ^ 23)
    (hmh0 : 0 < max_height) (hmh1 : max_height < 2 ^ 23) :
    ∃ sw sh pw ph : ℚ,
      f32_div max_width width = .ok sw ∧ f32_div max_height height = .ok sh ∧
      f32_mul width (fmin sw sh) = .ok pw ∧ f32_mul height (fmin sw sh) = .ok ph ∧
      fit_in_rectangle width height max_width max_height = .ok (⌊pw⌋, ⌊ph⌋) ∧
      (if (max_width : ℚ) / width ≤ (max_height : ℚ) / height
        then max_width - 1 ≤ ⌊pw⌋ ∧ ⌊pw⌋ ≤ max_width
        else max_height - 1 ≤ ⌊ph⌋ ∧ ⌊ph⌋ ≤ max_height) := by
  have hW : int_to_float width = .ok (width : ℚ) := round32_int_exact width hw0 hw1
  have hH : int_to_float height = .ok (height : ℚ) := round32_int_exact height hh0 hh1
  have hMW : int_to_float max_width = .ok (max_width : ℚ) :=
    round32_int_exact max_width hmw0 (by omega)
  have hMH : int_to_float max_height = .ok (max_height : ℚ) :=
    round32_int_exact max_height hmh0 (by omega)
  have qw0 : (1 : ℚ) ≤ width := by exact_mod_cast hw0
  have qw1 : (width : ℚ) < 2 ^ 24 := by exact_mod_cast hw1
  have qh0 : (1 : ℚ) ≤ height := by exact_mod_cast hh0
  have qh1 : (height : ℚ) < 2 ^ 24 := by exact_mod_cast hh1
  have qmw0 : (1 : ℚ) ≤ max_width := by exact_mod_cast hmw0
  have qmw1 : (max_width : ℚ) ≤ 2 ^ 23 - 1 := by
    have : max_width ≤ 2 ^ 23 - 1 := by omega
    exact_mod_cast this
  have qmh0 : (1 : ℚ) ≤ max_height := by exact_mod_cast hmh0
  have qmh1 : (max_height : ℚ) ≤ 2 ^ 23 - 1 := by
    have : max_height ≤ 2 ^ 23 - 1 := by omega
    exact_mod_cast this
  have hwpos : (0 : ℚ) < width := by linarith
  have hhpos : (0 : ℚ) < height := by linarith
  obtain ⟨sw, hsw, hswlo, hswhi, hsw0⟩ := ratio_near width max_width (by linarith)
    (by norm_num at qw1 ⊢; linarith) qmw0 qmw1
  obtain ⟨sh, hsh, hshlo, hshhi, hsh0⟩ := ratio_near height max_height (by linarith)
    (by norm_num at qh1 ⊢; linarith) qmh0 qmh1
  have hs0 : 1 / 2 ^ 34 ≤ fmin sw sh := by
    rcases fmin_cases sw sh with h | h <;> rw [h] <;> assumption
  obtain ⟨pw, hpw, hpwlo, hpw0, hpw1⟩ :=
    scaled_dimension width max_width sw (fmin sw sh) (by linarith) qmw1 hswhi hs0
      (fmin_le_left sw sh)
  obtain ⟨ph, hph, hphlo, hph0, hph1⟩ :=
    scaled_dimension height max_height sh (fmin sw sh) (by linarith) qmh1 hshhi hs0
      (fmin_le_right sw sh)
  have hnw := float_to_int_floor pw hpw0 (by norm_num at qmw1 ⊢; linarith)
  have hnh := float_to_int_floor ph hph0 (by norm_num at qmh1 ⊢; linarith)
  have hfit := fit_in_rectangle_steps width height max_width max_height width height max_width
    max_height sw sh pw ph ⌊pw⌋ ⌊ph⌋ hMW hW hMH hH hsw hsh hpw hph hnw hnh
  -- the two ratios, as exact values, are in the normal range
  have hrw : round32 ((max_width : ℚ) / width) = .ok sw := by
    have := hsw
    unfold f32_div at this
    rwa [if_neg (ne_of_gt hwpos)] at this
  have hrh : round32 ((max_height : ℚ) / height) = .ok sh := by
    have := hsh
    unfold f32_div at this
    rwa [if_neg (ne_of_gt hhpos)] at this
  have hlow : ∀ a b : ℚ, 1 ≤ a → 1 ≤ b → b < 2 ^ 24 → (2 : ℚ) ^ (-126 : ℤ) ≤ a / b := by
    intro a b ha hb1 hb2
    have hb : 0 < b := by linarith
    rw [le_div_iff₀ hb]
    have : (2 : ℚ) ^ (-126 : ℤ) * b ≤ 2 ^ (-126 : ℤ) * 2 ^ 24 :=
      mul_le_mul_of_nonneg_left hb2.le (by norm_num)
    norm_num at this ⊢
    linarith
  have hupp : ∀ a b : ℚ, a ≤ 2 ^ 23 - 1 → 1 ≤ b → a / b < (2 : ℚ) ^ (127 : ℤ) := by
    intro a b ha hb1
    have hb : 0 < b := by linarith
    rw [div_lt_iff₀ hb]
    have : (2 : ℚ) ^ (127 : ℤ) * 1 ≤ 2 ^ (127 : ℤ) * b :=
      mul_le_mul_of_nonneg_left hb1 (by norm_num)
    norm_num at this ha ⊢
    linarith
  refine ⟨sw, sh, pw, ph, hsw, hsh, hpw, hph, hfit, ?_⟩
  split_ifs with hc
  · have hle : sw ≤ sh := round32_mono _ _ sw sh (hlow _ _ qmw0 qw0 qw1) hc
      (hupp _ _ qmh1 qh0) hrw hrh
    have hmin : fmin sw sh = sw := by
      unfold fmin
      split_ifs with h
      · rfl
      · linarith
    rw [hmin] at hpwlo
    have hlo := scaled_dimension_lower width max_width sw pw hwpos qmw1 hswlo hpwlo
    constructor
    · exact Int.le_floor.2 (by push_cast; exact hlo)
    · have : ⌊pw⌋ < max_width + 1 := Int.floor_lt.2 (by push_cast; exact hpw1)
      omega
  · have hle : sh ≤ sw := round32_mono _ _ sh sw (hlow _ _ qmh0 qh0 qh1) (le_of_lt (not_le.1 hc))
      (hupp _ _ qmw1 qw0) hrh hrw
    have hmin : fmin sw sh = sh := by
      unfold fmin
      split_ifs with h
      · linarith
      · rfl
    rw [hmin] at hphlo
    have hlo := scaled_dimension_lower height max_height sh ph hhpos qmh1 hshlo hphlo
    constructor
    · exact Int.le_floor.2 (by push_cast; exact hlo)
    · have : ⌊ph⌋ < max_height + 1 := Int.floor_lt.2 (by push_cast; exact hph1)
      omega

/-- The witness of C5: an image of 7 x 7 pixels and the bounds 31 x 31. -/
theorem fit_in_rectangle_smaller_ratio_witness :
    ∃ sw sh pw ph : ℚ,
      f32_div ((31 : Int) : ℚ) ((7 : Int) : ℚ) = .ok sw ∧
      f32_div ((31 : Int) : ℚ) ((7 : Int) : ℚ) = .ok sh ∧
      f32_mul ((7 : Int) : ℚ) (fmin sw sh) = .ok pw ∧
      f32_mul ((7 : Int) : ℚ) (fmin sw sh) = .ok ph ∧
      fit_in_rectangle 7 7 31 31 = .ok (⌊pw⌋, ⌊ph⌋) ∧
      (if (((31 : Int) : ℚ)) / ((7 : Int) : ℚ) ≤ ((31 : Int) : ℚ) / ((7 : Int) : ℚ)
        then (31 : Int) - 1 ≤ ⌊pw⌋ ∧ ⌊pw⌋ ≤ 31
        else (31 : Int) - 1 ≤ ⌊ph⌋ ∧ ⌊ph⌋ ≤ 31) :=
  fit_in_rectangle_smaller_ratio 7 7 31 31 (by decide) (by decide) (by decide) (by decide)
    (by decide) (by decide) (by decide) (by decide)

end T4K
